import Mathlib

/-!
# Graphing calculator firmware: real-time I/O core

A shallow embedding of `GraphingCalc.c` and `DisplayDemoGraphicsOnly.c`:
the keypad queue filled by the input-poll interrupt, the display-clock
interrupt that latches one byte per clock-high tick, the single-button
debounce of the display demo, and the mode dispatcher of `main`.

Conventions.  An `unsigned char` (raw key code, port register, byte to send)
is a `Nat`; the 8-bit registers only ever receive masks below 256, so no
write can overflow them.  A `char` that is only compared with literals
(modes, flags, input-type tags) is a `Char`.  A character that is stored in a
text buffer is kept as its byte code (`Nat`), with `0` the null terminator.
A buffer is the list of its cells; its length is its allocated size.  Only
the buffer itself is modelled, not its neighbours in memory: a store through
an index outside the buffer is undefined behaviour in C and has no meaning
here, so a statement about what a store through a signed index changes
assumes an index that is not negative.
-/

namespace GraphingCalc

/-! ## Program constants -/

def LED_PIN : Nat := 0b00100000
def RESET_PIN : Nat := 0b00010000
def CLOCK_PIN : Nat := 0b00001000
def A0_PIN : Nat := 0b00000100
def DB7_PIN : Nat := 0b00000010
def DB6_PIN : Nat := 0b00000001

def IN_BUFFER_SIZE : Nat := 540
def EQ_BUFFER_SIZE : Nat := 120
def TEXT_BUFFER_SIZE : Nat := 200
def FUNCTION_TEXT_SEL_BUFFER_SIZE : Nat := 3

/-! ## String helpers the sources call but do not define -/

/-- Modelled from the spec: `fillWithNulls` is missing from the sources; a
fresh buffer of the given size holds only null bytes. -/
def fillWithNulls (size : Nat) : List Nat := List.replicate size 0

/-- Modelled from the spec: `sizeOf` is missing from the sources (it is not
the C operator `sizeof`); it reports the allocated size of a buffer, its
capacity in bytes. -/
def sizeOf (buf : List Nat) : Nat := buf.length

/-- Length of the text held in a buffer: the number of cells before the first
null byte (the C library `strlen`). -/
def strlen : List Nat → Nat
  | [] => 0
  | c :: cs => if c = 0 then 0 else strlen cs + 1

/-- The text held in a buffer: the cells before the first null byte. -/
def text : List Nat → List Nat
  | [] => []
  | c :: cs => if c = 0 then [] else c :: text cs

/-- Outcome of a rejected buffer edit. -/
inductive StoreError where
  | Full
  | OutOfRange
deriving DecidableEq, Repr

/-- Modelled from the spec: `removeFromString` is missing from the sources.
This is the store's `deleteAt`: an index at or past the current text length
is `OutOfRange`; otherwise the cell is removed, the cells after it shift left
by one and the freed last cell becomes null. -/
def deleteAt (buf : List Nat) (idx : Int) : Except StoreError (List Nat) :=
  if 0 ≤ idx ∧ idx.toNat < strlen buf then
    Except.ok (buf.eraseIdx idx.toNat ++ [0])
  else
    Except.error StoreError.OutOfRange

/-- Modelled from the spec: `removeFromString(buf, idx)` as the sources call
it, a statement whose outcome is dropped: the buffer after `deleteAt`, the
old buffer when the index is out of range. -/
def removeFromString (buf : List Nat) (idx : Int) : List Nat :=
  match deleteAt buf idx with
  | Except.ok b => b
  | Except.error _ => buf

/-- Store `v` in cell `idx` of a buffer (`buf[idx] = v`).  The list is the
buffer alone, not the memory around it: for `0 ≤ idx < sizeOf buf` the store
is the one C performs; a store at a negative index or past the allocation is
undefined behaviour in C, where it writes memory outside the buffer, and is
not followed here (the list is left as it is).  A statement about a store
therefore speaks for the program only where the index is inside the buffer. -/
def writeAt (buf : List Nat) (idx : Int) (v : Nat) : List Nat :=
  if 0 ≤ idx then buf.set idx.toNat v else buf

/-! ## Keypad queue (`GraphingCalc.c`, input-poll interrupt) -/

/-- The accepted-code test of the input-poll handler. -/
def checkValidInput (currentInput prevInput : Nat) : Char :=
  if currentInput = prevInput then '0'
  else
    let numInput : Int := (currentInput : Int)
    if numInput ≥ 1 ∧ numInput ≤ 20 then '1' else '0'

/-- The interrupt-shared keypad state: `inBuffer`, `prevInput` and
`nextBufferIndex`. -/
structure KeyQueue where
  inBuffer : List Nat
  prevInput : Nat
  nextBufferIndex : Nat
deriving DecidableEq, Repr

/-- The state `main` sets up: a null-filled buffer of the given size. -/
def KeyQueue.init (size : Nat) : KeyQueue :=
  { inBuffer := fillWithNulls size, prevInput := 0, nextBufferIndex := 0 }

/-- One run of `ISR(TIMER1_COMPA_vect)` of `GraphingCalc.c`, with
`currentInput` the value `getKeypadInput()` returned.  The buffer is taken as
allocated (`inBuffer != NULL` holds). -/
def pollTick (q : KeyQueue) (currentInput : Nat) : KeyQueue :=
  let isValidInput := checkValidInput currentInput q.prevInput
  let q1 : KeyQueue :=
    if isValidInput = '1' then
      if q.nextBufferIndex < sizeOf q.inBuffer - 1 then
        { q with
          inBuffer := writeAt q.inBuffer q.nextBufferIndex currentInput
          nextBufferIndex := q.nextBufferIndex + 1 }
      else
        let shifted := removeFromString q.inBuffer 0
        { q with
          inBuffer := writeAt shifted ((sizeOf q.inBuffer : Int) - 1) currentInput
          nextBufferIndex := sizeOf q.inBuffer - 1 }
    else q
  { q1 with prevInput := currentInput }

/-- The queue contents: `inBuffer[0 .. nextBufferIndex-1]`. -/
def KeyQueue.contents (q : KeyQueue) : List Nat :=
  q.inBuffer.take q.nextBufferIndex

/-- The head of the main loop's drain: the raw code read from `inBuffer[0]`,
when `nextBufferIndex > 0`. -/
def KeyQueue.front (q : KeyQueue) : Option Nat :=
  if q.nextBufferIndex > 0 then some (q.inBuffer.getD 0 0) else none

/-- The tail of one drain iteration: `removeFromString(inBuffer, 0)` and
`nextBufferIndex--`. -/
def KeyQueue.dequeue (q : KeyQueue) : KeyQueue :=
  { q with
    inBuffer := removeFromString q.inBuffer 0
    nextBufferIndex := q.nextBufferIndex - 1 }

/-- Run the input-poll handler once per raw code of the list. -/
def pollTicks (q : KeyQueue) (codes : List Nat) : KeyQueue :=
  codes.foldl pollTick q

/-- An event seen by the keypad queue: a poll tick reading a raw code, or one
drain iteration of the main loop. -/
inductive QueueEvent where
  | tick (raw : Nat)
  | drain
deriving DecidableEq, Repr

/-- Run a schedule of poll ticks and drain iterations; the second component
collects, oldest first, the raw codes the main loop read from `inBuffer[0]`.
A drain scheduled while `nextBufferIndex = 0` finds the loop condition false
and does nothing. -/
def runQueue : KeyQueue → List QueueEvent → KeyQueue × List Nat
  | q, [] => (q, [])
  | q, QueueEvent.tick raw :: es => runQueue (pollTick q raw) es
  | q, QueueEvent.drain :: es =>
    match q.front with
    | some c =>
      let r := runQueue q.dequeue es
      (r.1, c :: r.2)
    | none => runQueue q es

/-- A run of raw codes each of which the poll handler accepts: every code
passes `checkValidInput` against the code read on the tick before it. -/
def AcceptedRun : Nat → List Nat → Prop
  | _, [] => True
  | prev, c :: cs => checkValidInput c prev = '1' ∧ AcceptedRun c cs

/-- Key codes alternating between 1 and 2: `n` codes, the first one
`k % 2 + 1` (two keys pressed in turn). -/
def altFrom : Nat → Nat → List Nat
  | _, 0 => []
  | k, n + 1 => (k % 2 + 1) :: altFrom (k + 1) n

/-! ## Display link (display-clock interrupt and `sendByteToDisplay`) -/

/-- The transmission slot and the two output ports the clock-tick handler
drives. -/
structure DisplayLink where
  PORTB : Nat
  PORTD : Nat
  byteToSend : Nat
  byteAwaitingTransmission : Char
  isCommand : Char
deriving DecidableEq, Repr

/-- One iteration of the handler's `for (i = 7; i >= 0; i--)` loop: bit `i` of
`byteToSend` is driven onto its line, DB7/DB6 on port B for bits 7 and 6,
port D pin `i+2` for bits 5..0. -/
def latchBit (s : DisplayLink) (i : Nat) : DisplayLink :=
  if i ≥ 6 then
    let mask := if i = 7 then DB7_PIN else DB6_PIN
    if s.byteToSend &&& (1 <<< i) = (1 <<< i) then
      { s with PORTB := s.PORTB ||| mask }
    else if s.PORTB &&& mask = mask then
      { s with PORTB := s.PORTB ^^^ mask }
    else s
  else if s.byteToSend &&& (1 <<< i) = (1 <<< i) then
    { s with PORTD := s.PORTD ||| (1 <<< (i + 2)) }
  else if s.PORTD &&& (1 <<< (i + 2)) = (1 <<< (i + 2)) then
    { s with PORTD := s.PORTD ^^^ (1 <<< (i + 2)) }
  else s

/-- One run of `ISR(TIMER0_COMPA_vect)` (the same text in both sources). -/
def clockTick (s : DisplayLink) : DisplayLink :=
  let s1 := { s with PORTB := s.PORTB ^^^ CLOCK_PIN }
  if (s1.PORTB &&& CLOCK_PIN) = CLOCK_PIN ∧ s1.byteAwaitingTransmission = '1' then
    let s2 :=
      if s1.isCommand = '1' then { s1 with PORTB := s1.PORTB ||| A0_PIN }
      else if (s1.PORTB &&& A0_PIN) = A0_PIN then { s1 with PORTB := s1.PORTB ^^^ A0_PIN }
      else s1
    let s3 := [7, 6, 5, 4, 3, 2, 1, 0].foldl latchBit s2
    { s3 with byteAwaitingTransmission := '0' }
  else if (s1.PORTB &&& CLOCK_PIN) = CLOCK_PIN then
    { s1 with PORTB := CLOCK_PIN, PORTD := 0b00000000 }
  else s1

/-- The level of the command/data select line A0. -/
def a0Level (s : DisplayLink) : Bool := decide ((s.PORTB &&& A0_PIN) = A0_PIN)

/-- The byte standing on the eight data lines: DB7 and DB6 are port B bits 1
and 0, DB5..DB0 are port D bits 7..2. -/
def dataLines (s : DisplayLink) : Nat := ((s.PORTB &&& 3) <<< 6) ||| (s.PORTD >>> 2)

/-- Whether the next tick latches a byte: it drives the clock high while a
byte is pending. -/
def latchesNext (s : DisplayLink) : Bool :=
  decide (((s.PORTB ^^^ CLOCK_PIN) &&& CLOCK_PIN) = CLOCK_PIN
    ∧ s.byteAwaitingTransmission = '1')

/-- The busy-wait of `sendByteToDisplay`, with the clock-tick handler as the
only thing that runs meanwhile: ticks until the flag is no longer '1'.  The
second component lists what the bus showed at each latching tick.  `none`
when the flag is still set after `fuel` ticks. -/
def awaitClear : Nat → DisplayLink → Option (DisplayLink × List (Bool × Nat))
  | fuel, s =>
    if s.byteAwaitingTransmission = '1' then
      match fuel with
      | 0 => none
      | fuel + 1 =>
        let t := clockTick s
        match awaitClear fuel t with
        | none => none
        | some (u, seen) =>
          some (u, if latchesNext s then (a0Level t, dataLines t) :: seen else seen)
    else some (s, [])

/-- The producer side, `sendByteToDisplay(currentByte, currentIsCommand)`:
post the byte, raise the flag, wait for the handler to clear it. -/
def sendByteToDisplay (fuel : Nat) (s : DisplayLink) (currentByte : Nat)
    (currentIsCommand : Char) : Option (DisplayLink × List (Bool × Nat)) :=
  awaitClear fuel
    { s with
      isCommand := currentIsCommand
      byteToSend := currentByte
      byteAwaitingTransmission := '1' }

/-- A list of `sendByteToDisplay` calls made one after another; the bus
observations of the calls are concatenated. -/
def sendAll (fuel : Nat) : DisplayLink → List (Nat × Char) →
    Option (DisplayLink × List (Bool × Nat))
  | s, [] => some (s, [])
  | s, (b, c) :: rest =>
    match sendByteToDisplay fuel s b c with
    | none => none
    | some (t, seen) =>
      match sendAll fuel t rest with
      | none => none
      | some (u, seen2) => some (u, seen ++ seen2)

/-- Drive bit `k` of a port to the level `v` the way the handler does it: OR
the mask in for a 1, XOR it out for a 0 when the bit is set. -/
def setBitTo (x k : Nat) (v : Bool) : Nat :=
  if v then x ||| 2 ^ k else if x &&& 2 ^ k = 2 ^ k then x ^^^ 2 ^ k else x

/-! ## Single-button debounce (`DisplayDemoGraphicsOnly.c`) -/

def BUTTON_PIN : Nat := 0b00100000

/-- The button flags shared by the button-poll interrupt and the demo's main
loop, with the main loop's `mode`. -/
structure Button where
  prevButtonInput : Char
  buttonInput : Char
  buttonRead : Char
  mode : Int
deriving DecidableEq, Repr

/-- One run of `ISR(TIMER1_COMPA_vect)` of the display demo; `portB` is the
value read from PORTB. -/
def buttonTick (s : Button) (portB : Nat) : Button :=
  if (portB &&& BUTTON_PIN) = BUTTON_PIN then
    let s1 : Button :=
      if s.prevButtonInput = '0' then { s with buttonInput := '1', buttonRead := '0' }
      else if s.buttonRead = '0' then { s with buttonInput := '1' }
      else { s with buttonInput := '0' }
    { s1 with prevButtonInput := '1' }
  else
    let s1 : Button :=
      if s.prevButtonInput = '1' ∧ s.buttonRead = '0' then { s with buttonInput := '1' }
      else { s with buttonInput := '0' }
    { s1 with prevButtonInput := '0' }

/-- The demo's mode step: 0, 1, 2 and round again. -/
def advanceMode (mode : Int) : Int := if mode < 2 then mode + 1 else 0

/-- One pass of the demo's `while (1)` body; the flag tells whether the pass
consumed a button event (and so advanced the mode and redrew). -/
def buttonPoll (s : Button) : Button × Bool :=
  if s.buttonInput = '1' ∧ s.buttonRead = '0' then
    ({ s with buttonRead := '1', mode := advanceMode s.mode }, true)
  else (s, false)

/-- Run `n` passes of the main loop; the count is the number of events
consumed. -/
def buttonPolls : Nat → Button → Button × Nat
  | 0, s => (s, 0)
  | n + 1, s =>
    let r := buttonPoll s
    let r2 := buttonPolls n r.1
    (r2.1, (if r.2 then 1 else 0) + r2.2)

/-- A run of button-poll ticks: one tick per entry `(portB, n)` of the
schedule, reading `portB` from PORTB and followed by `n` passes of the main
loop.  The count is the number of events the main loop consumed. -/
def holdButton : Button → List (Nat × Nat) → Button × Nat
  | s, [] => (s, 0)
  | s, (portB, n) :: rest =>
    let r := buttonPolls n (buttonTick s portB)
    let r2 := holdButton r.1 rest
    (r2.1, r.2 + r2.2)

/-! ## Mode dispatcher (`main` of `GraphingCalc.c`) -/

/-- A call `main` makes into the display, output and expression
collaborators, with the arguments the claims look at. -/
inductive Call where
  | drawCharacter (c : Nat) (pos : Int)
  | drawCommandLine (buf : List Nat) (pos : Int)
  | drawGraph
  | drawEquationScreen (currentEquation : Char)
  | drawSpecialFunctionsScreen (prevMode : Char) (buf : List Nat)
  | drawMenuScreen (prevMode : Char)
  | drawEquationsMenuScreen
  | printCmdOutput (pos : Int) (buf : List Nat)
  | updateWindowBounds (buf : List Nat)
  | checkValidExpression (buf : List Nat)
  | updateScreenCursor (pos : Int)
deriving DecidableEq, Repr

/-- The functions `main` calls that the sources do not define, taken as
parameters: the value each returns.  The drawing, printing and checking
routines only read the buffers handed to them. -/
structure Collaborators where
  decodeRawChar : Nat → Char → Nat
  getInputType : Nat → Char → Char
  getNextMode : Nat → Char
  drawCharacter : Nat → Int → Char → Int
  drawCommandLine : List Nat → Int → Int
  drawEquationScreen : List (List Nat) → Char → Int
  drawSpecialFunctionsScreen : Char → List Nat → Int
  printCmdOutput : Int → List Nat → Int
  clearBufferCursor : Int → List Nat → Int
  pasteSpecialFunction : Int → List Nat → Int → List Nat × Int
  parseFunctionChoice : List Nat → Int
  moveTextCursor : Int → Int → Int
  specFuncTextSize : Int

/-- Modelled from the spec: `clearBuffer` is missing from the sources; it
clears the command buffer (every cell null) and returns the new cursor
position, which the collaborators supply. -/
def clearBuffer (env : Collaborators) (pos : Int) (buf : List Nat) : Int × List Nat :=
  (env.clearBufferCursor pos buf, fillWithNulls (sizeOf buf))

/-- The local state of `main`, with PORTB (whose LED bit the alt toggle
flips) and the collaborator calls made so far, oldest first. -/
structure Calc where
  equA : List Nat
  equB : List Nat
  equC : List Nat
  equD : List Nat
  equE : List Nat
  equF : List Nat
  textBuffer : List Nat
  functionTextSelBuffer : List Nat
  textBufferIndex : Int
  equationIndex : Int
  functionIndex : Int
  prevMode : Char
  mode : Char
  altFunction : Char
  textCursorPos : Int
  currentEquation : Char
  specialFunctionPasted : Char
  currentSpecFuncType : Int
  PORTB : Nat
  calls : List Call

/-- The equation buffer a `switch (currentEquation)` of `main` selects: one
of the six slots for 'a'..'f', none for any other value (the switches have no
default case). -/
def Calc.slot (s : Calc) (eq : Char) : Option (List Nat) :=
  if eq = 'a' then some s.equA
  else if eq = 'b' then some s.equB
  else if eq = 'c' then some s.equC
  else if eq = 'd' then some s.equD
  else if eq = 'e' then some s.equE
  else if eq = 'f' then some s.equF
  else none

/-- Replace the equation buffer selected by `eq`. -/
def Calc.setSlot (s : Calc) (eq : Char) (buf : List Nat) : Calc :=
  if eq = 'a' then { s with equA := buf }
  else if eq = 'b' then { s with equB := buf }
  else if eq = 'c' then { s with equC := buf }
  else if eq = 'd' then { s with equD := buf }
  else if eq = 'e' then { s with equE := buf }
  else if eq = 'f' then { s with equF := buf }
  else s

/-- The six equation buffers, as handed to the drawing routines. -/
def Calc.equations (s : Calc) : List (List Nat) :=
  [s.equA, s.equB, s.equC, s.equD, s.equE, s.equF]

/-- The `case 'p'` branch: a printable character goes to the active mode's
buffer. -/
def dispatchPrintable (env : Collaborators) (s : Calc) (currentChar : Nat) : Calc :=
  if s.mode = 'c' then
    if s.textBufferIndex < (sizeOf s.textBuffer : Int) - 1 then
      { s with
        textBuffer := writeAt s.textBuffer s.textBufferIndex currentChar
        textBufferIndex := s.textBufferIndex + 1
        textCursorPos := env.drawCharacter currentChar s.textCursorPos '0'
        calls := s.calls ++ [Call.drawCharacter currentChar s.textCursorPos] }
    else s
  else if s.mode = 'e' then
    match s.slot s.currentEquation with
    | some equ =>
      if s.equationIndex < (sizeOf equ : Int) - 1 then
        { s.setSlot s.currentEquation (writeAt equ s.equationIndex currentChar) with
          equationIndex := s.equationIndex + 1
          textCursorPos := env.drawCharacter currentChar s.textCursorPos '0'
          calls := s.calls ++ [Call.drawCharacter currentChar s.textCursorPos] }
      else s
    | none => s
  else if s.mode = 'f' then
    if s.functionIndex < (sizeOf s.functionTextSelBuffer : Int) - 1 then
      { s with
        functionTextSelBuffer := writeAt s.functionTextSelBuffer s.functionIndex currentChar
        functionIndex := s.functionIndex + 1
        textCursorPos := env.drawCharacter currentChar s.textCursorPos '0'
        calls := s.calls ++ [Call.drawCharacter currentChar s.textCursorPos] }
    else s
  else s

/-- The `case 'a'` branch: toggle the alt indicator LED and the alt flag. -/
def dispatchAlt (s : Calc) : Calc :=
  { s with
    PORTB := s.PORTB ^^^ LED_PIN
    altFunction := if s.altFunction = '0' then '1' else '0' }

/-- The `case 't'` branch: switch mode, keeping the old one in `prevMode`,
and redraw. -/
def dispatchTransition (env : Collaborators) (s : Calc) (currentChar : Nat) : Calc :=
  let s1 := { s with prevMode := s.mode, mode := env.getNextMode currentChar }
  if s1.mode = 'c' then
    { s1 with
      textCursorPos := env.drawCommandLine s1.textBuffer s1.textCursorPos
      calls := s1.calls ++ [Call.drawCommandLine s1.textBuffer s1.textCursorPos] }
  else if s1.mode = 'g' then
    { s1 with calls := s1.calls ++ [Call.drawGraph] }
  else if s1.mode = 'e' then
    let s2 :=
      if currentChar = 1 then { s1 with currentEquation := 'a' }
      else if currentChar = 2 then { s1 with currentEquation := 'b' }
      else if currentChar = 3 then { s1 with currentEquation := 'c' }
      else if currentChar = 4 then { s1 with currentEquation := 'd' }
      else if currentChar = 5 then { s1 with currentEquation := 'e' }
      else if currentChar = 6 then { s1 with currentEquation := 'f' }
      else s1
    let pos := env.drawEquationScreen s2.equations s2.currentEquation
    { s2 with
      textCursorPos := pos
      equationIndex := pos
      calls := s2.calls ++ [Call.drawEquationScreen s2.currentEquation] }
  else if s1.mode = 'f' then
    let pos := env.drawSpecialFunctionsScreen s1.prevMode s1.functionTextSelBuffer
    { s1 with
      textCursorPos := pos
      functionIndex := env.specFuncTextSize - 1 - pos
      calls := s1.calls
        ++ [Call.drawSpecialFunctionsScreen s1.prevMode s1.functionTextSelBuffer] }
  else if s1.mode = 'm' then
    { s1 with calls := s1.calls ++ [Call.drawMenuScreen s1.prevMode] }
  else if s1.mode = 'q' then
    { s1 with calls := s1.calls ++ [Call.drawEquationsMenuScreen] }
  else s1

/-- The `case 'e'` branch: the mode-dependent commit action. -/
def dispatchExecute (env : Collaborators) (s : Calc) : Calc :=
  if s.mode = 'c' then
    let s1 := { s with
      textCursorPos := env.printCmdOutput s.textCursorPos s.textBuffer
      calls := s.calls ++ [Call.printCmdOutput s.textCursorPos s.textBuffer] }
    let s2 :=
      if s1.specialFunctionPasted = '1' then
        let s1a :=
          if s1.currentSpecFuncType = 1 then
            { s1 with
              textCursorPos := env.drawCommandLine s1.textBuffer s1.textCursorPos
              calls := s1.calls ++ [Call.drawCommandLine s1.textBuffer s1.textCursorPos] }
          else if s1.currentSpecFuncType = 2 then
            { s1 with calls := s1.calls ++ [Call.updateWindowBounds s1.textBuffer] }
          else s1
        { s1a with specialFunctionPasted := '0', currentSpecFuncType := -1 }
      else s1
    let cleared := clearBuffer env s2.textCursorPos s2.textBuffer
    { s2 with textCursorPos := cleared.1, textBuffer := cleared.2, textBufferIndex := 0 }
  else if s.mode = 'e' then
    let s1 :=
      match s.slot s.currentEquation with
      | some equ => { s with calls := s.calls ++ [Call.checkValidExpression equ] }
      | none => s
    { s1 with
      prevMode := s1.mode
      mode := 'q'
      calls := s1.calls ++ [Call.drawEquationsMenuScreen] }
  else if s.mode = 'f' then
    let functionChoice := env.parseFunctionChoice s.functionTextSelBuffer
    if functionChoice ≥ 0 then
      let s1 := { s with
        currentSpecFuncType := functionChoice, mode := s.prevMode, prevMode := 'f' }
      let s2 :=
        if s1.mode = 'c' then
          let pos := env.drawCommandLine s1.textBuffer s1.textCursorPos
          let prevTextCursorPos := pos
          let pasted := env.pasteSpecialFunction functionChoice s1.textBuffer pos
          { s1 with
            textBuffer := pasted.1
            textCursorPos := pasted.2
            textBufferIndex := s1.textBufferIndex + (pasted.2 - prevTextCursorPos)
            calls := s1.calls ++ [Call.drawCommandLine s1.textBuffer s1.textCursorPos] }
        else if s1.mode = 'e' then
          let pos := env.drawEquationScreen s1.equations s1.currentEquation
          let prevTextCursorPos := pos
          let s1a := { s1 with
            textCursorPos := pos
            calls := s1.calls ++ [Call.drawEquationScreen s1.currentEquation] }
          let s1b :=
            match s1a.slot s1a.currentEquation with
            | some equ =>
              let pasted := env.pasteSpecialFunction functionChoice equ s1a.textCursorPos
              { s1a.setSlot s1a.currentEquation pasted.1 with textCursorPos := pasted.2 }
            | none => s1a
          { s1b with
            equationIndex := s1b.equationIndex + (s1b.textCursorPos - prevTextCursorPos) }
        else s1
      { s2 with specialFunctionPasted := '1' }
    else s
  else s

/-- An `int` converted to `unsigned int` (16 bits on the AVR), as the usual
arithmetic conversions do when it meets a `size_t`. -/
def toUnsigned (x : Int) : Int := x % 65536

/-- An `unsigned int` converted back to `int` (two's complement, 16 bits). -/
def toSigned (u : Int) : Int := if u < 32768 then u else u - 65536

/-- The expression `strlen(buf) - 1`: a `size_t`, so it wraps to 65535 on an
empty text. -/
def strlenMinusOne (buf : List Nat) : Int := toUnsigned ((strlen buf : Int) - 1)

/-- The `case 'c'` branch: move the active mode's cursor left ('<') or right
('>'). -/
def dispatchCursor (env : Collaborators) (s : Calc) (currentChar : Nat) : Calc :=
  let moved : Calc × Int :=
    if currentChar = '<'.toNat then
      if s.textBufferIndex > 0 ∧ s.mode = 'c' then
        ({ s with textBufferIndex := s.textBufferIndex - 1 }, -1)
      else if s.equationIndex > 0 ∧ s.mode = 'e' then
        ({ s with equationIndex := s.equationIndex - 1 }, -1)
      else if s.functionIndex > 0 ∧ s.mode = 'f' then
        ({ s with functionIndex := s.functionIndex - 1 }, -1)
      else (s, 0)
    else if currentChar = '>'.toNat then
      if toUnsigned s.textBufferIndex < strlenMinusOne s.textBuffer ∧ s.mode = 'c' then
        ({ s with textBufferIndex := s.textBufferIndex + 1 }, 1)
      else if s.mode = 'e' then
        let currEqLength : Int :=
          match s.slot s.currentEquation with
          | some equ => toSigned (strlenMinusOne equ)
          | none => 0
        if s.equationIndex < currEqLength then
          ({ s with equationIndex := s.equationIndex + 1 }, 1)
        else (s, 0)
      else if s.mode = 'f'
          ∧ toUnsigned s.functionIndex < strlenMinusOne s.functionTextSelBuffer then
        ({ s with functionIndex := s.functionIndex + 1 }, 1)
      else (s, 0)
    else (s, 0)
  let pos := env.moveTextCursor moved.1.textCursorPos moved.2
  { moved.1 with
    textCursorPos := pos
    calls := moved.1.calls ++ [Call.updateScreenCursor pos] }

/-- The `case 'd'` branch: delete at the cursor of the active mode's buffer. -/
def dispatchDelete (s : Calc) : Calc :=
  if s.mode = 'c' then
    { s with textBuffer := removeFromString s.textBuffer s.textBufferIndex }
  else if s.mode = 'f' then
    { s with
      functionTextSelBuffer := removeFromString s.functionTextSelBuffer s.functionIndex }
  else if s.mode = 'e' then
    match s.slot s.currentEquation with
    | some equ => s.setSlot s.currentEquation (removeFromString equ s.equationIndex)
    | none => s
  else s

/-- The `switch (currentInputType)` of the main loop, for an input already
decoded to `currentChar` and classified as `currentInputType`. -/
def dispatch (env : Collaborators) (s : Calc) (currentInputType : Char)
    (currentChar : Nat) : Calc :=
  if currentInputType = 'p' then dispatchPrintable env s currentChar
  else if currentInputType = 'a' then dispatchAlt s
  else if currentInputType = 't' then dispatchTransition env s currentChar
  else if currentInputType = 'e' then dispatchExecute env s
  else if currentInputType = 'c' then dispatchCursor env s currentChar
  else if currentInputType = 'd' then dispatchDelete s
  else s

/-- Dispatch a list of decoded, classified inputs in order. -/
def dispatchAll (env : Collaborators) (s : Calc) (inputs : List (Char × Nat)) : Calc :=
  inputs.foldl (fun st i => dispatch env st i.1 i.2) s

/-- One iteration of the inner `while (nextBufferIndex > 0)` loop: read the
raw code at the queue head, decode and classify it, dispatch it, dequeue. -/
def mainStep (env : Collaborators) (q : KeyQueue) (s : Calc) : KeyQueue × Calc :=
  if q.nextBufferIndex > 0 then
    let currentRawChar := q.inBuffer.getD 0 0
    let currentChar := env.decodeRawChar currentRawChar s.altFunction
    let currentInputType := env.getInputType currentChar s.mode
    (q.dequeue, dispatch env s currentInputType currentChar)
  else (q, s)

/-- The state of `main` on entry to its loop, apart from the first
`drawCommandLine` call, for given buffer sizes. -/
def Calc.init (eqSize textSize selSize : Nat) : Calc :=
  { equA := fillWithNulls eqSize, equB := fillWithNulls eqSize
    equC := fillWithNulls eqSize, equD := fillWithNulls eqSize
    equE := fillWithNulls eqSize, equF := fillWithNulls eqSize
    textBuffer := fillWithNulls textSize
    functionTextSelBuffer := fillWithNulls selSize
    textBufferIndex := 0, equationIndex := 0, functionIndex := 0
    prevMode := 'c', mode := 'c', altFunction := '0', textCursorPos := 0
    currentEquation := '0', specialFunctionPasted := '0', currentSpecFuncType := -1
    PORTB := 0, calls := [] }

/-- A concrete set of collaborators for running the dispatcher on examples:
the cursor advances by one per character drawn, the function menu is entered
with code 7, and a selection parses to its first digit. -/
def sampleCollaborators : Collaborators :=
  { decodeRawChar := fun raw _ => raw
    getInputType := fun _ _ => 'p'
    getNextMode := fun c => if c = 7 then 'f' else if c ≤ 6 then 'e' else 'c'
    drawCharacter := fun _ pos _ => pos + 1
    drawCommandLine := fun buf _ => (strlen buf : Int)
    drawEquationScreen := fun _ _ => 0
    drawSpecialFunctionsScreen := fun _ _ => 0
    printCmdOutput := fun pos _ => pos
    clearBufferCursor := fun _ _ => 0
    pasteSpecialFunction := fun _ buf pos => (buf, pos)
    parseFunctionChoice := fun buf =>
      if strlen buf = 0 then -1 else (buf.getD 0 0 : Int) - 48
    moveTextCursor := fun pos offset => pos + offset
    specFuncTextSize := 1 }

/-- The buffer the current mode edits: the command buffer in CommandLine
mode, the slot named by `currentEquation` in EquationEdit mode, the selection
buffer in FunctionMenu mode; none in the other modes. -/
def Calc.activeBuffer (s : Calc) : Option (List Nat) :=
  if s.mode = 'c' then some s.textBuffer
  else if s.mode = 'e' then s.slot s.currentEquation
  else if s.mode = 'f' then some s.functionTextSelBuffer
  else none

/-- The index the current mode edits at. -/
def Calc.activeIndex (s : Calc) : Int :=
  if s.mode = 'c' then s.textBufferIndex
  else if s.mode = 'e' then s.equationIndex
  else s.functionIndex

/-- Equation slot `a` of the real size holding 119 letters, a full text, with
the cursor on its last letter. -/
def fullSlotState : Calc :=
  { Calc.init EQ_BUFFER_SIZE TEXT_BUFFER_SIZE FUNCTION_TEXT_SEL_BUFFER_SIZE with
    mode := 'e', currentEquation := 'a'
    equA := List.replicate 119 65 ++ [0], equationIndex := 118 }

/-- The function menu entered from the command line, "12" typed into the
3-byte selection buffer, then the cursor moved left once. -/
def fullSelectionState : Calc :=
  dispatchAll sampleCollaborators
    (Calc.init EQ_BUFFER_SIZE TEXT_BUFFER_SIZE FUNCTION_TEXT_SEL_BUFFER_SIZE)
    [('t', 7), ('p', '1'.toNat), ('p', '2'.toNat), ('c', '<'.toNat)]

/-- The cell at which one run of the input-poll handler stores
`currentInput` itself: `inBuffer[nextBufferIndex]` when there is room,
`inBuffer[sizeOf(inBuffer)-1]` in the overflow branch, none when the code is
not accepted. -/
def pollTickStore (q : KeyQueue) (currentInput : Nat) : Option Nat :=
  if checkValidInput currentInput q.prevInput = '1' then
    if q.nextBufferIndex < sizeOf q.inBuffer - 1 then some q.nextBufferIndex
    else some (sizeOf q.inBuffer - 1)
  else none

/-- The command line of the freshly started program after "ab" was typed. -/
def typedAbState : Calc :=
  dispatchAll sampleCollaborators
    (Calc.init EQ_BUFFER_SIZE TEXT_BUFFER_SIZE FUNCTION_TEXT_SEL_BUFFER_SIZE)
    [('p', 'a'.toNat), ('p', 'b'.toNat)]

/-! ## Display initialisation (`initDisplay` of `DisplayDemoGraphicsOnly.c`) -/

def C_SYS_SET : Nat := 0b01000000
def P_SYS_SET_P1_SMALL : Nat := 0b00100000
def P_SYS_SET_P2_SMALL : Nat := 0b00000111
def P_SYS_SET_P3_SMALL : Nat := 0b00000111
def P_SYS_SET_P4 : Nat := 0b01001111
def P_SYS_SET_P5 : Nat := 0b00101011
def P_SYS_SET_P6 : Nat := 0b11101111
def P_SYS_SET_P7 : Nat := 0b00101000
def P_SYS_SET_P8 : Nat := 0b00000000
def C_DISP_ON : Nat := 0b01011001
def P_DISP_ATTRIB_NOCURSOR : Nat := 0b00000100
def C_DISP_OFF : Nat := 0b01011000
def C_SCROLL : Nat := 0b01000100
def P_SCROLL_P1 : Nat := 0b00000000
def P_SCROLL_P2 : Nat := 0b00000000
def P_SCROLL_P3_MONO : Nat := 0b11101111
def P_SCROLL_P4_MONO : Nat := 0b10000000
def P_SCROLL_P5_MONO : Nat := 0b00100101
def P_SCROLL_P6_MONO : Nat := 0b00000000
def P_SCROLL_P7_MONO : Nat := 0b10000001
def P_SCROLL_P8_MONO : Nat := 0b00100101
def C_CSRFORM : Nat := 0b01011101
def P_CSRFORM_P1_SMALL : Nat := 0b00000111
def P_CSRFORM_P2_SMALL : Nat := 0b00000111
def C_OVERLAY : Nat := 0b01011011
def P_OVERLAY : Nat := 0b00000000
def C_HDOT_SCR : Nat := 0b01011010
def P_HDOT_SCR : Nat := 0b00000000
def C_CSRW : Nat := 0b01000110
def C_MEMWRITE : Nat := 0b01000010

/-- The calls of `sendByteToDisplay` made so far, oldest first, each with its
byte and its command flag. -/
abbrev Trace := List (Nat × Char)

/-- One call `sendByteToDisplay(currentByte, currentIsCommand)` as seen by the
caller: the pair is submitted after the ones before it. -/
def send (currentByte : Nat) (currentIsCommand : Char) (tr : Trace) : Trace :=
  tr ++ [(currentByte, currentIsCommand)]

def systemSet (tr : Trace) : Trace :=
  let tr := send C_SYS_SET '1' tr
  let tr := send P_SYS_SET_P1_SMALL '0' tr
  let tr := send P_SYS_SET_P2_SMALL '0' tr
  let tr := send P_SYS_SET_P3_SMALL '0' tr
  let tr := send P_SYS_SET_P4 '0' tr
  let tr := send P_SYS_SET_P5 '0' tr
  let tr := send P_SYS_SET_P6 '0' tr
  let tr := send P_SYS_SET_P7 '0' tr
  send P_SYS_SET_P8 '0' tr

def setScroll (tr : Trace) : Trace :=
  let tr := send C_SCROLL '1' tr
  let tr := send P_SCROLL_P1 '0' tr
  let tr := send P_SCROLL_P2 '0' tr
  let tr := send P_SCROLL_P3_MONO '0' tr
  let tr := send P_SCROLL_P4_MONO '0' tr
  let tr := send P_SCROLL_P5_MONO '0' tr
  let tr := send P_SCROLL_P6_MONO '0' tr
  let tr := send P_SCROLL_P7_MONO '0' tr
  send P_SCROLL_P8_MONO '0' tr

def setHDOT_SCR (tr : Trace) : Trace :=
  let tr := send C_HDOT_SCR '1' tr
  send P_HDOT_SCR '0' tr

def setOverlay (tr : Trace) : Trace :=
  let tr := send C_OVERLAY '1' tr
  send P_OVERLAY '0' tr

/-- The parameter `on` of the source is named `onFlag` here. -/
def setDispState (onFlag : Char) (tr : Trace) : Trace :=
  let tr := if onFlag = '1' then send C_DISP_ON '1' tr else send C_DISP_OFF '1' tr
  send P_DISP_ATTRIB_NOCURSOR '0' tr

/-- The inner loop of `clearAllDisplayMemory`,
`for (j = ...; j < 0b01111111; j++)` from the current value of the
`unsigned char` counter `j`. -/
def clearInner (i j : Nat) (tr : Trace) : Trace :=
  if j < 0b01111111 then
    let tr := send C_CSRW '1' tr
    let tr := send i '0' tr
    let tr := send j '0' tr
    let tr := send C_MEMWRITE '1' tr
    let tr := send 0b00000000 '0' tr
    clearInner i ((j + 1) % 256) tr
  else tr
termination_by 0b01111111 - j
decreasing_by omega

/-- The outer loop of `clearAllDisplayMemory`,
`for (i = ...; i < 0b11111111; i++)` from the current value of the
`unsigned char` counter `i`. -/
def clearOuter (i : Nat) (tr : Trace) : Trace :=
  if i < 0b11111111 then clearOuter ((i + 1) % 256) (clearInner i 0 tr) else tr
termination_by 0b11111111 - i
decreasing_by omega

def clearAllDisplayMemory (tr : Trace) : Trace := clearOuter 0 tr

/-- The source spells the third call `sendByteToDispay`; it is read as
`sendByteToDisplay`. -/
def setCSRW (tr : Trace) : Trace :=
  let tr := send C_CSRW '1' tr
  let tr := send 0b00000000 '0' tr
  send 0b00000000 '0' tr

def setCSRForm (tr : Trace) : Trace :=
  let tr := send C_CSRFORM '1' tr
  let tr := send P_CSRFORM_P1_SMALL '0' tr
  send P_CSRFORM_P2_SMALL '0' tr

/-- The body of `initDisplay`, without the delays between the groups. -/
def initDisplay (tr : Trace) : Trace :=
  let tr := systemSet tr
  let tr := setScroll tr
  let tr := setHDOT_SCR tr
  let tr := setOverlay tr
  let tr := setDispState '0' tr
  let tr := clearAllDisplayMemory tr
  let tr := setCSRW tr
  let tr := setCSRForm tr
  setDispState '1' tr

/-- A command group in the words of the specification: the command byte sent
with the command flag '1', then its parameter bytes, each sent with flag
'0'. -/
def commandGroup (command : Nat) (parameters : List Nat) : Trace :=
  (command, '1') :: parameters.map (fun p => (p, '0'))

/-- The bytes of a trace that were sent with the command flag '1', in
order. -/
def commandBytes (tr : Trace) : List Nat :=
  (tr.filter (fun p => p.2 = '1')).map (fun p => p.1)

/-- The memory-clear sweep as a list of groups: for each `i` below 255 and,
inside, each `j` below 127, a cursor-address group and a memory-write
group. -/
def sweepGroups : Trace :=
  (List.range 255).flatMap (fun i =>
    (List.range 127).flatMap (fun j =>
      commandGroup C_CSRW [i, j] ++ commandGroup C_MEMWRITE [0]))

/-- The cursor addresses a trace issues: for each C_CSRW sent with the command
flag, the two bytes submitted right after it, in order of issue. -/
def cursorAddresses : Trace → List (Nat × Nat)
  | [] => []
  | (b, c) :: rest =>
    (if b = C_CSRW ∧ c = '1' then
      match rest with
      | (p1, _) :: (p2, _) :: _ => [(p1, p2)]
      | _ => []
    else []) ++ cursorAddresses rest

end GraphingCalc

open GraphingCalc

/-! ## Keypad queue: lemmas -/

theorem checkValidInput_eq_one_iff (cur prev : Nat) :
    checkValidInput cur prev = '1' ↔ cur ≠ prev ∧ 1 ≤ cur ∧ cur ≤ 20 := by
  unfold checkValidInput
  by_cases h : cur = prev
  · simp [h]
  · by_cases h2 : ((cur : Int) ≥ 1 ∧ (cur : Int) ≤ 20)
    · have : 1 ≤ cur ∧ cur ≤ 20 := by omega
      simp [h, h2, this]
    · have : ¬ (1 ≤ cur ∧ cur ≤ 20) := by omega
      simp only [h, h2, if_false]
      constructor
      · intro hc; exact absurd hc (by decide)
      · intro hc; exact absurd hc.2 this

theorem acceptedRun_altFrom (n : Nat) : ∀ (k prev : Nat), prev ≠ k % 2 + 1 →
    AcceptedRun prev (altFrom k n) := by
  induction n with
  | zero => intro k prev _; trivial
  | succ n ih =>
    intro k prev h
    refine ⟨?_, ih (k + 1) _ (by omega)⟩
    rw [checkValidInput_eq_one_iff]
    omega

theorem length_altFrom (n : Nat) : ∀ k, (altFrom k n).length = n := by
  induction n with
  | zero => intro k; rfl
  | succ n ih => intro k; simp [altFrom, ih]

theorem strlen_pos_of_head {c : Nat} {cs : List Nat} (h : c ≠ 0) :
    0 < strlen (c :: cs) := by
  simp [strlen, h]

theorem removeFromString_zero_cons {c : Nat} (cs : List Nat) (h : c ≠ 0) :
    removeFromString (c :: cs) 0 = cs ++ [0] := by
  have : (0 : Nat) < strlen (c :: cs) := strlen_pos_of_head h
  simp [removeFromString, deleteAt, this]

/-- A poll tick with an accepted code and room in the queue stores the code at
`nextBufferIndex` and advances the index. -/
theorem pollTick_room (pre : List Nat) (m prev c : Nat)
    (hv : checkValidInput c prev = '1') (hm : 2 ≤ m) :
    pollTick ⟨pre ++ List.replicate m 0, prev, pre.length⟩ c
      = ⟨(pre ++ [c]) ++ List.replicate (m - 1) 0, c, pre.length + 1⟩ := by
  obtain ⟨k, rfl⟩ : ∃ k, m = k + 1 := ⟨m - 1, by omega⟩
  have hlt : pre.length < GraphingCalc.sizeOf (pre ++ List.replicate (k + 1) 0) - 1 := by
    simp [GraphingCalc.sizeOf]; omega
  simp only [pollTick, hv, if_true]
  rw [if_pos hlt]
  simp [writeAt, List.replicate_succ]

/-- Accepted codes pushed into a queue with room for all of them land in
order behind the codes already queued. -/
theorem pollTicks_room (codes : List Nat) : ∀ (pre : List Nat) (m prev : Nat),
    AcceptedRun prev codes → codes.length + 1 ≤ m →
    pollTicks ⟨pre ++ List.replicate m 0, prev, pre.length⟩ codes
      = ⟨(pre ++ codes) ++ List.replicate (m - codes.length) 0,
          codes.getLastD prev, pre.length + codes.length⟩ := by
  induction codes with
  | nil => intro pre m prev _ _; simp [pollTicks]
  | cons c cs ih =>
    intro pre m prev hacc hm
    simp only [List.length_cons] at hm
    have h1 := pollTick_room pre m prev c hacc.1 (by omega)
    have h2 := ih (pre ++ [c]) (m - 1) c hacc.2 (by omega)
    simp only [pollTicks, List.foldl_cons] at h2 ⊢
    rw [h1]
    simp only [List.length_append, List.length_singleton] at h2
    rw [h2]
    have e1 : m - 1 - cs.length = m - (cs.length + 1) := by omega
    have e2 : cs.getLastD c = (c :: cs).getLastD prev := by cases cs <;> rfl
    rw [e1, e2]
    simp [Nat.add_assoc, Nat.add_comm 1]

/-- A poll tick with an accepted code and a full queue: the oldest code is
shifted out, the spare last cell `z` of the buffer moves into the queue and
the new code is stored in the spare cell, outside the queue contents. -/
theorem pollTick_full (x : Nat) (xs : List Nat) (z prev c : Nat)
    (hx : x ≠ 0) (hv : checkValidInput c prev = '1') :
    pollTick ⟨(x :: xs) ++ [z], prev, xs.length + 1⟩ c
      = ⟨xs ++ [z, c], c, xs.length + 1⟩ := by
  have hnlt : ¬ (xs.length + 1 < GraphingCalc.sizeOf ((x :: xs) ++ [z]) - 1) := by
    simp [GraphingCalc.sizeOf]
  have hrm : removeFromString ((x :: xs) ++ [z]) 0 = (xs ++ [z]) ++ [0] :=
    removeFromString_zero_cons _ hx
  have hsz : ((GraphingCalc.sizeOf ((x :: xs) ++ [z]) : Nat) : Int) - 1 = ((xs.length + 1 : Nat) : Int) := by
    simp [GraphingCalc.sizeOf]
  simp only [pollTick, hv, hnlt, if_true, if_false, hrm, hsz, writeAt]
  simp [GraphingCalc.sizeOf, List.set_append]
  intro h
  omega

theorem altFrom_snoc (n : Nat) : ∀ k, altFrom k (n + 1) = altFrom k n ++ [(k + n) % 2 + 1] := by
  induction n with
  | zero => intro k; simp [altFrom]
  | succ n ih =>
    intro k
    rw [altFrom, ih (k + 1)]
    simp [altFrom, Nat.add_assoc, Nat.add_comm 1]

theorem acceptedRun_append (l : List Nat) : ∀ (prev : Nat) (c : Nat),
    AcceptedRun prev (l ++ [c]) →
    AcceptedRun prev l ∧ checkValidInput c (l.getLastD prev) = '1' := by
  induction l with
  | nil => intro prev c h; exact ⟨trivial, h.1⟩
  | cons x xs ih =>
    intro prev c h
    have h2 := ih x c h.2
    refine ⟨⟨h.1, h2.1⟩, ?_⟩
    have e : (x :: xs).getLastD prev = xs.getLastD x := by cases xs <;> rfl
    rw [e]; exact h2.2

theorem acceptedRun_ne_zero (l : List Nat) : ∀ (prev : Nat),
    AcceptedRun prev l → ∀ x ∈ l, x ≠ 0 := by
  induction l with
  | nil => intro _ _ x hx; simp at hx
  | cons y ys ih =>
    intro prev h x hx
    rcases List.mem_cons.mp hx with rfl | hx
    · have := (checkValidInput_eq_one_iff x prev).mp h.1
      omega
    · exact ih y h.2 x hx

/-- Filling the queue to the brim and pushing one more accepted code: the
buffer ends as the old codes minus the oldest, then the null byte that was in
the spare last cell, then the new code in the spare cell. -/
theorem pollTicks_overflow (x : Nat) (xs : List Nat) (c : Nat)
    (hacc : AcceptedRun 0 ((x :: xs) ++ [c])) :
    pollTicks (KeyQueue.init (xs.length + 2)) ((x :: xs) ++ [c])
      = ⟨xs ++ [0, c], c, xs.length + 1⟩ := by
  obtain ⟨h1, h2⟩ := acceptedRun_append (x :: xs) 0 c hacc
  have hx : x ≠ 0 := acceptedRun_ne_zero _ 0 h1 x (by simp)
  have hinit : KeyQueue.init (xs.length + 2)
      = ⟨[] ++ List.replicate (xs.length + 2) 0, 0, ([] : List Nat).length⟩ := rfl
  have hfill := pollTicks_room (x :: xs) [] (xs.length + 2) 0 h1 (by simp)
  have e : xs.length + 2 - (x :: xs).length = 1 := by simp
  rw [e] at hfill
  simp only [pollTicks, List.foldl_append, List.foldl_cons, List.foldl_nil] at hfill ⊢
  rw [hinit, hfill]
  have := pollTick_full x xs 0 ((x :: xs).getLastD 0) c hx h2
  simpa using this

theorem runQueue_ticks (codes : List Nat) : ∀ (q : KeyQueue) (es : List QueueEvent),
    runQueue q (codes.map QueueEvent.tick ++ es) = runQueue (pollTicks q codes) es := by
  induction codes with
  | nil => intro q es; rfl
  | cons c cs ih =>
    intro q es
    simp only [List.map_cons, List.cons_append, runQueue, pollTicks, List.foldl_cons]
    exact ih (pollTick q c) es

theorem runQueue_drain_one (b : List Nat) (prev k : Nat) (hk : 0 < k) :
    (runQueue ⟨b, prev, k⟩ [QueueEvent.drain]).2 = [b.getD 0 0] := by
  simp [runQueue, KeyQueue.front, hk]

/-- Draining a queue whose front part `xs` holds no null byte reads exactly
`xs`, oldest first. -/
theorem runQueue_drain (xs : List Nat) : ∀ (rest : List Nat) (prev k : Nat)
    (es : List QueueEvent), (∀ x ∈ xs, x ≠ 0) →
    runQueue ⟨xs ++ rest, prev, xs.length + k⟩
        (List.replicate xs.length QueueEvent.drain ++ es)
      = ((runQueue ⟨rest ++ List.replicate xs.length 0, prev, k⟩ es).1,
          xs ++ (runQueue ⟨rest ++ List.replicate xs.length 0, prev, k⟩ es).2) := by
  induction xs with
  | nil => intro rest prev k es _; simp
  | cons x xs ih =>
    intro rest prev k es hnz
    have hx : x ≠ 0 := hnz x (by simp)
    have hfront : KeyQueue.front ⟨(x :: xs) ++ rest, prev, (x :: xs).length + k⟩ = some x := by
      simp [KeyQueue.front]
    have hdq : KeyQueue.dequeue ⟨(x :: xs) ++ rest, prev, (x :: xs).length + k⟩
        = ⟨xs ++ (rest ++ [0]), prev, xs.length + k⟩ := by
      simp only [KeyQueue.dequeue, List.cons_append, removeFromString_zero_cons _ hx]
      simp
    have hrec := ih (rest ++ [0]) prev k es (fun y hy => hnz y (by simp [hy]))
    simp only [List.length_cons, List.replicate_succ, List.cons_append, runQueue]
    simp only [List.length_cons, List.cons_append] at hfront hdq
    rw [hfront]
    simp only [hdq, List.append_eq]
    rw [hrec]
    simp [List.replicate_succ]

theorem altFrom_540 : altFrom 0 540 = (1 :: altFrom 1 538) ++ [2] := by
  have e1 : altFrom 0 540 = altFrom 0 539 ++ [2] := altFrom_snoc 539 0
  have e2 : altFrom 0 539 = 1 :: altFrom 1 538 := by
    rw [show (539 : Nat) = 538 + 1 from rfl, altFrom]
  rw [e1, e2]

/-- The full-size queue after 540 accepted codes and no drain in between. -/
theorem pollTicks_540 :
    pollTicks (KeyQueue.init IN_BUFFER_SIZE) (altFrom 0 540)
      = ⟨altFrom 1 538 ++ [0, 2], 2, 539⟩ := by
  have hacc : AcceptedRun 0 ((1 :: altFrom 1 538) ++ [2]) := by
    rw [← altFrom_540]; exact acceptedRun_altFrom 540 0 0 (by decide)
  have h := pollTicks_overflow 1 (altFrom 1 538) 2 hacc
  rw [length_altFrom] at h
  rw [altFrom_540]
  exact h

/-! ## Keypad queue: the claims -/

/-- C8: for every pair of bytes, `checkValidInput` returns '1' exactly when
the current code differs from the previous one and lies in 1..20, and
returns '0' in every other case. -/
theorem checkValidInput_accepts_iff (currentInput prevInput : Nat) :
    (checkValidInput currentInput prevInput = '1'
        ↔ currentInput ≠ prevInput ∧ 1 ≤ currentInput ∧ currentInput ≤ 20)
    ∧ (¬ (currentInput ≠ prevInput ∧ 1 ≤ currentInput ∧ currentInput ≤ 20)
        → checkValidInput currentInput prevInput = '0') := by
  refine ⟨checkValidInput_eq_one_iff currentInput prevInput, ?_⟩
  intro h
  unfold checkValidInput
  by_cases h1 : currentInput = prevInput
  · simp [h1]
  · have h2 : ¬ ((currentInput : Int) ≥ 1 ∧ (currentInput : Int) ≤ 20) := by omega
    simp only [h1, h2, if_false]

/-- C1 (the code as written): pushing one code more than the queue holds does
not leave the most recent codes in the queue.  With a 4-byte buffer (queue
capacity 3) the pushes 1, 2, 3, 4 leave the contents 2, 3, 0 while the newest
code 4 sits in the spare cell `inBuffer[3]`, outside the contents; with a
3-byte buffer the whole buffer ends as 0, 3, 4; and with the real 540-byte
buffer, 540 accepted codes leave a null byte as the newest queue entry
instead of the code just pushed. -/
theorem keyQueue_overflow_misplaces_newest :
    (pollTicks (KeyQueue.init 4) [1, 2, 3, 4]).contents = [2, 3, 0]
    ∧ (pollTicks (KeyQueue.init 4) [1, 2, 3, 4]).inBuffer = [2, 3, 0, 4]
    ∧ (pollTicks (KeyQueue.init 3) [1, 2, 3, 4]).inBuffer = [0, 3, 4]
    ∧ (pollTicks (KeyQueue.init IN_BUFFER_SIZE) (altFrom 0 540)).contents
        = altFrom 1 538 ++ [0]
    ∧ (pollTicks (KeyQueue.init IN_BUFFER_SIZE) (altFrom 0 540)).contents
        ≠ (altFrom 0 540).drop 1 := by
  have hc : (pollTicks (KeyQueue.init IN_BUFFER_SIZE) (altFrom 0 540)).contents
      = altFrom 1 538 ++ [0] := by
    rw [pollTicks_540]
    have hl : (altFrom 1 538 ++ [0]).length = 539 := by simp [length_altFrom]
    have : altFrom 1 538 ++ [0, 2] = (altFrom 1 538 ++ [0]) ++ [2] := by simp
    simp only [KeyQueue.contents, this]
    rw [← hl, List.take_left]
  refine ⟨by decide, by decide, by decide, hc, ?_⟩
  rw [hc, altFrom_540]
  intro h
  simp at h

/-- C9 (the code as written): a null byte reaches the main loop.  From the
initial state of the real 540-byte buffer, 540 accepted codes followed by 539
drain iterations make the main loop read the 538 codes after the first and
then the raw code 0 from `inBuffer[0]`, which is outside the range 1..20. -/
theorem drain_after_overflow_reads_null :
    (runQueue (KeyQueue.init IN_BUFFER_SIZE)
        ((altFrom 0 540).map QueueEvent.tick ++ List.replicate 539 QueueEvent.drain)).2
      = altFrom 1 538 ++ [0]
    ∧ ¬ (∀ c ∈ (runQueue (KeyQueue.init IN_BUFFER_SIZE)
          ((altFrom 0 540).map QueueEvent.tick ++ List.replicate 539 QueueEvent.drain)).2,
        1 ≤ c ∧ c ≤ 20) := by
  have hnz : ∀ x ∈ altFrom 1 538, x ≠ 0 :=
    acceptedRun_ne_zero _ 0 (acceptedRun_altFrom 538 1 0 (by decide))
  have hrun : (runQueue (KeyQueue.init IN_BUFFER_SIZE)
        ((altFrom 0 540).map QueueEvent.tick ++ List.replicate 539 QueueEvent.drain)).2
      = altFrom 1 538 ++ [0] := by
    rw [runQueue_ticks, pollTicks_540]
    have hd := runQueue_drain (altFrom 1 538) [0, 2] 2 1 [QueueEvent.drain] hnz
    rw [length_altFrom] at hd
    have e : List.replicate 539 QueueEvent.drain
        = List.replicate 538 QueueEvent.drain ++ [QueueEvent.drain] := by
      rw [show (539 : Nat) = 538 + 1 from rfl, List.replicate_succ']
    rw [e, hd, runQueue_drain_one _ _ _ (by decide)]
    rfl
  refine ⟨hrun, ?_⟩
  rw [hrun]
  intro h
  have := h 0 (by simp)
  omega


/-! ## Display link: lemmas -/

theorem and_two_pow_eq_iff (x k : Nat) : x &&& 2 ^ k = 2 ^ k ↔ x.testBit k = true := by
  rw [Nat.and_two_pow]
  have hp : 0 < 2 ^ k := Nat.two_pow_pos k
  cases h : x.testBit k
  · simp; omega
  · simp

theorem testBit_setBitTo (x k : Nat) (v : Bool) (j : Nat) :
    (setBitTo x k v).testBit j = if j = k then v else x.testBit j := by
  unfold setBitTo
  by_cases hjk : j = k
  · subst hjk
    cases v
    · by_cases hx : x &&& 2 ^ j = 2 ^ j
      · have := (and_two_pow_eq_iff x j).mp hx
        simp [hx, this, Nat.testBit_two_pow_self]
      · have : x.testBit j = false := by
          cases hb : x.testBit j
          · rfl
          · exact absurd ((and_two_pow_eq_iff x j).mpr hb) hx
        simp [hx, this]
    · simp [Nat.testBit_two_pow_self]
  · have hkj : ¬ k = j := fun h => hjk h.symm
    cases v <;> by_cases hx : x &&& 2 ^ k = 2 ^ k <;>
      simp [hx, hjk, hkj, Nat.testBit_two_pow]

theorem latchBit_low (s : DisplayLink) (i : Nat) (hi : i < 6) :
    latchBit s i
      = { s with PORTD := setBitTo s.PORTD (i + 2) (s.byteToSend.testBit i) } := by
  have h6 : ¬ i ≥ 6 := by omega
  unfold latchBit setBitTo
  simp only [h6, if_false, Nat.one_shiftLeft, and_two_pow_eq_iff]
  cases hb : s.byteToSend.testBit i <;> cases hd : s.PORTD.testBit (i + 2) <;> simp

theorem latchBit_seven (s : DisplayLink) :
    latchBit s 7 = { s with PORTB := setBitTo s.PORTB 1 (s.byteToSend.testBit 7) } := by
  have hb := and_two_pow_eq_iff s.byteToSend 7
  have hp := and_two_pow_eq_iff s.PORTB 1
  norm_num at hb hp
  unfold latchBit setBitTo
  cases h1 : s.byteToSend.testBit 7 <;> cases h2 : s.PORTB.testBit 1 <;>
    simp [DB7_PIN, hb, hp, h1, h2]

theorem latchBit_six (s : DisplayLink) :
    latchBit s 6 = { s with PORTB := setBitTo s.PORTB 0 (s.byteToSend.testBit 6) } := by
  have hb := and_two_pow_eq_iff s.byteToSend 6
  norm_num at hb
  unfold latchBit setBitTo
  cases h1 : s.byteToSend.testBit 6
  · simp [DB6_PIN, hb, h1]
    split_ifs <;> rfl
  · simp [DB6_PIN, hb, h1]

/-- The whole loop of the handler: what the eight iterations leave on the
two ports. -/
theorem foldl_latchBit (s : DisplayLink) :
    [7, 6, 5, 4, 3, 2, 1, 0].foldl latchBit s
      = { s with
          PORTB := setBitTo (setBitTo s.PORTB 1 (s.byteToSend.testBit 7)) 0
            (s.byteToSend.testBit 6)
          PORTD := setBitTo (setBitTo (setBitTo (setBitTo (setBitTo (setBitTo s.PORTD
            7 (s.byteToSend.testBit 5)) 6 (s.byteToSend.testBit 4))
            5 (s.byteToSend.testBit 3)) 4 (s.byteToSend.testBit 2))
            3 (s.byteToSend.testBit 1)) 2 (s.byteToSend.testBit 0) } := by
  simp only [List.foldl, latchBit_seven, latchBit_six, latchBit_low _ 5 (by decide),
    latchBit_low _ 4 (by decide), latchBit_low _ 3 (by decide), latchBit_low _ 2 (by decide),
    latchBit_low _ 1 (by decide), latchBit_low _ 0 (by decide)]

theorem and_two_pow_eq_zero_iff (x k : Nat) : x &&& 2 ^ k = 0 ↔ x.testBit k = false := by
  rw [Nat.and_two_pow]
  have hp : 0 < 2 ^ k := Nat.two_pow_pos k
  cases h : x.testBit k
  · simp
  · simp

theorem clock_high_after_iff (x : Nat) :
    (x ^^^ CLOCK_PIN) &&& CLOCK_PIN = CLOCK_PIN ↔ x &&& CLOCK_PIN = 0 := by
  have e : CLOCK_PIN = 2 ^ 3 := rfl
  rw [e, and_two_pow_eq_iff, and_two_pow_eq_zero_iff, Nat.testBit_xor, Nat.testBit_two_pow_self]
  cases x.testBit 3 <;> simp

theorem setBitTo_a0 (x : Nat) (c : Prop) [Decidable c] :
    setBitTo x 2 (decide c)
      = if c then x ||| A0_PIN else if x &&& A0_PIN = A0_PIN then x ^^^ A0_PIN else x := by
  unfold setBitTo
  simp only [show A0_PIN = 2 ^ 2 from rfl, decide_eq_true_eq]

/-- The state a latching tick leaves: the clock bit toggled, A0 driven from
`isCommand`, the eight data lines driven from `byteToSend`, the flag
cleared. -/
theorem clockTick_latch (s : DisplayLink) (hclk : s.PORTB &&& CLOCK_PIN = 0)
    (hpend : s.byteAwaitingTransmission = '1') :
    clockTick s
      = { PORTB := setBitTo (setBitTo (setBitTo (s.PORTB ^^^ CLOCK_PIN) 2
            (decide (s.isCommand = '1'))) 1 (s.byteToSend.testBit 7)) 0
            (s.byteToSend.testBit 6)
          PORTD := setBitTo (setBitTo (setBitTo (setBitTo (setBitTo (setBitTo s.PORTD
            7 (s.byteToSend.testBit 5)) 6 (s.byteToSend.testBit 4))
            5 (s.byteToSend.testBit 3)) 4 (s.byteToSend.testBit 2))
            3 (s.byteToSend.testBit 1)) 2 (s.byteToSend.testBit 0)
          byteToSend := s.byteToSend
          byteAwaitingTransmission := '0'
          isCommand := s.isCommand } := by
  have hhigh := (clock_high_after_iff s.PORTB).mpr hclk
  unfold clockTick
  simp only [hhigh, hpend, and_self, if_true, foldl_latchBit, setBitTo_a0]
  by_cases hc : s.isCommand = '1'
  · simp only [hc, if_true]
  · by_cases hx : (s.PORTB ^^^ CLOCK_PIN) &&& A0_PIN = A0_PIN
    · simp only [hc, hx, if_true, if_false]
    · simp only [hc, hx, if_false]

/-- Port D after the six low bits have been driven: pins 7..2 carry bits 5..0
of the byte, the other bits are as before. -/
theorem testBit_latched_PORTD (d b m : Nat) :
    (setBitTo (setBitTo (setBitTo (setBitTo (setBitTo (setBitTo d
        7 (b.testBit 5)) 6 (b.testBit 4)) 5 (b.testBit 3)) 4 (b.testBit 2))
        3 (b.testBit 1)) 2 (b.testBit 0)).testBit m
      = if 2 ≤ m ∧ m ≤ 7 then b.testBit (m - 2) else d.testBit m := by
  simp only [testBit_setBitTo]
  by_cases h : 2 ≤ m ∧ m ≤ 7
  · rw [if_pos h]
    obtain rfl | rfl | rfl | rfl | rfl | rfl :
        m = 2 ∨ m = 3 ∨ m = 4 ∨ m = 5 ∨ m = 6 ∨ m = 7 := by omega
    all_goals simp
  · rw [if_neg h]
    have h2 : m ≠ 2 := by omega
    have h3 : m ≠ 3 := by omega
    have h4 : m ≠ 4 := by omega
    have h5 : m ≠ 5 := by omega
    have h6 : m ≠ 6 := by omega
    have h7 : m ≠ 7 := by omega
    simp [h2, h3, h4, h5, h6, h7]

/-- Port B after A0 and the two high bits have been driven. -/
theorem testBit_latched_PORTB (p b m : Nat) (a : Bool) :
    (setBitTo (setBitTo (setBitTo p 2 a) 1 (b.testBit 7)) 0 (b.testBit 6)).testBit m
      = if m = 0 then b.testBit 6 else if m = 1 then b.testBit 7
        else if m = 2 then a else p.testBit m := by
  simp only [testBit_setBitTo]

/-- The byte read back from the data lines after a latch is the byte sent. -/
theorem dataLines_latched (p d b : Nat) (a : Bool) (hd : d < 256) (hb : b < 256) :
    (((setBitTo (setBitTo (setBitTo p 2 a) 1 (b.testBit 7)) 0 (b.testBit 6)) &&& 3) <<< 6)
      ||| ((setBitTo (setBitTo (setBitTo (setBitTo (setBitTo (setBitTo d
        7 (b.testBit 5)) 6 (b.testBit 4)) 5 (b.testBit 3)) 4 (b.testBit 2))
        3 (b.testBit 1)) 2 (b.testBit 0)) >>> 2) = b := by
  apply Nat.eq_of_testBit_eq
  intro j
  have h3 : ∀ i, Nat.testBit 3 i = decide (i < 2) := Nat.testBit_two_pow_sub_one 2
  rw [Nat.testBit_or, Nat.testBit_shiftLeft, Nat.testBit_and, Nat.testBit_shiftRight,
    testBit_latched_PORTD, testBit_latched_PORTB, h3]
  by_cases hj : j < 6
  · have h1 : ¬ j ≥ 6 := by omega
    have h2 : 2 ≤ 2 + j ∧ 2 + j ≤ 7 := by omega
    simp [h1, h2]
  · by_cases hj8 : j < 8
    · have hdb : d.testBit (2 + j) = false :=
        Nat.testBit_lt_two_pow (Nat.lt_of_lt_of_le hd
          (by rw [show (256 : Nat) = 2 ^ 8 from rfl]; exact Nat.pow_le_pow_right (by decide) (by omega)))
      have h2 : ¬ (2 ≤ 2 + j ∧ 2 + j ≤ 7) := by omega
      obtain rfl | rfl : j = 6 ∨ j = 7 := by omega
      · simp [hdb]
      · simp [hdb]
    · have hdb : d.testBit (2 + j) = false :=
        Nat.testBit_lt_two_pow (Nat.lt_of_lt_of_le hd
          (by rw [show (256 : Nat) = 2 ^ 8 from rfl]; exact Nat.pow_le_pow_right (by decide) (by omega)))
      have hbb : b.testBit j = false :=
        Nat.testBit_lt_two_pow (Nat.lt_of_lt_of_le hb
          (by rw [show (256 : Nat) = 2 ^ 8 from rfl]; exact Nat.pow_le_pow_right (by decide) (by omega)))
      have h2 : ¬ (2 ≤ 2 + j ∧ 2 + j ≤ 7) := by omega
      have h4 : ¬ j - 6 < 2 := by omega
      simp [hdb, hbb, h2, h4]

/-- What the bus shows after a latching tick. -/
theorem latch_observed (s : DisplayLink) (hD : s.PORTD < 256) (hb : s.byteToSend < 256)
    (hclk : s.PORTB &&& CLOCK_PIN = 0) (hpend : s.byteAwaitingTransmission = '1') :
    a0Level (clockTick s) = decide (s.isCommand = '1')
    ∧ dataLines (clockTick s) = s.byteToSend
    ∧ (clockTick s).byteAwaitingTransmission = '0'
    ∧ (clockTick s).PORTD < 256 := by
  rw [clockTick_latch s hclk hpend]
  refine ⟨?_, dataLines_latched _ _ _ _ hD hb, rfl, ?_⟩
  · unfold a0Level
    have e : A0_PIN = 2 ^ 2 := rfl
    simp only [e, and_two_pow_eq_iff, testBit_latched_PORTB]
    simp
  · rw [show (256 : Nat) = 2 ^ 8 from rfl]
    apply Nat.lt_pow_two_of_testBit
    intro i hi
    have h : ¬ (2 ≤ i ∧ i ≤ 7) := by omega
    simp only [testBit_latched_PORTD, if_neg h]
    exact Nat.testBit_lt_two_pow (Nat.lt_of_lt_of_le hD
      (by rw [show (256 : Nat) = 2 ^ 8 from rfl]; exact Nat.pow_le_pow_right (by decide) hi))

/-- A tick that finds the clock high only drops the clock; a pending byte
stays pending. -/
theorem clockTick_falling (s : DisplayLink) (hclk : s.PORTB &&& CLOCK_PIN ≠ 0) :
    clockTick s = { s with PORTB := s.PORTB ^^^ CLOCK_PIN } := by
  have hn : ¬ ((s.PORTB ^^^ CLOCK_PIN) &&& CLOCK_PIN = CLOCK_PIN) :=
    fun h => hclk ((clock_high_after_iff s.PORTB).mp h)
  unfold clockTick
  simp only [hn, false_and, if_false]

theorem clock_low_after (x : Nat) (h : x &&& CLOCK_PIN ≠ 0) :
    (x ^^^ CLOCK_PIN) &&& CLOCK_PIN = 0 := by
  have e : CLOCK_PIN = 2 ^ 3 := rfl
  rw [e] at h
  have h2 : ¬ x.testBit 3 = false := fun hf => h ((and_two_pow_eq_zero_iff x 3).mpr hf)
  rw [e, and_two_pow_eq_zero_iff, Nat.testBit_xor, Nat.testBit_two_pow_self]
  cases hx : x.testBit 3
  · exact absurd hx h2
  · rfl

theorem awaitClear_clear (fuel : Nat) (s : DisplayLink)
    (h : s.byteAwaitingTransmission ≠ '1') : awaitClear fuel s = some (s, []) := by
  cases fuel <;> simp [awaitClear, h]

theorem awaitClear_step (fuel : Nat) (s : DisplayLink)
    (h : s.byteAwaitingTransmission = '1') :
    awaitClear (fuel + 1) s
      = match awaitClear fuel (clockTick s) with
        | none => none
        | some (u, seen) =>
          some (u, if latchesNext s then (a0Level (clockTick s), dataLines (clockTick s)) :: seen
                   else seen) := by
  rw [awaitClear]
  simp only [h, if_true]

/-- One call of `sendByteToDisplay` returns after at most two ticks, and the
bus showed exactly the posted pair, once. -/
theorem sendByteToDisplay_delivers (fuel : Nat) (s : DisplayLink) (b : Nat) (c : Char)
    (hD : s.PORTD < 256) (hb : b < 256) :
    ∃ t, sendByteToDisplay (fuel + 2) s b c = some (t, [(decide (c = '1'), b)])
      ∧ t.PORTD < 256 ∧ t.byteAwaitingTransmission = '0' := by
  by_cases hclk : s.PORTB &&& CLOCK_PIN = 0
  · obtain ⟨h1, h2, h3, h4⟩ := latch_observed
      { s with isCommand := c, byteToSend := b, byteAwaitingTransmission := '1' }
      hD hb hclk rfl
    refine ⟨_, ?_, h4, h3⟩
    have hl : latchesNext
        { s with isCommand := c, byteToSend := b, byteAwaitingTransmission := '1' } = true := by
      simp [latchesNext, (clock_high_after_iff s.PORTB).mpr hclk]
    unfold sendByteToDisplay
    rw [awaitClear_step _ _ rfl, awaitClear_clear _ _ (by rw [h3]; decide)]
    simp [hl, h1, h2]
  · have hlow := clock_low_after s.PORTB hclk
    obtain ⟨h1, h2, h3, h4⟩ := latch_observed
      { s with PORTB := s.PORTB ^^^ CLOCK_PIN, isCommand := c, byteToSend := b,
               byteAwaitingTransmission := '1' }
      hD hb hlow rfl
    refine ⟨_, ?_, h4, h3⟩
    have hf := clockTick_falling
      { s with isCommand := c, byteToSend := b, byteAwaitingTransmission := '1' } hclk
    have hl0 : latchesNext
        { s with isCommand := c, byteToSend := b, byteAwaitingTransmission := '1' } = false := by
      have hn : ¬ ((s.PORTB ^^^ CLOCK_PIN) &&& CLOCK_PIN = CLOCK_PIN) :=
        fun h => hclk ((clock_high_after_iff s.PORTB).mp h)
      simp [latchesNext, hn]
    have hl1 : latchesNext
        { s with PORTB := s.PORTB ^^^ CLOCK_PIN, isCommand := c, byteToSend := b,
                 byteAwaitingTransmission := '1' } = true := by
      simp [latchesNext, (clock_high_after_iff (s.PORTB ^^^ CLOCK_PIN)).mpr hlow]
    unfold sendByteToDisplay
    rw [awaitClear_step _ _ rfl, hf, awaitClear_step _ _ rfl,
      awaitClear_clear _ _ (by rw [h3]; decide)]
    simp [hl0, hl1, h1, h2]

theorem sendAll_delivers (fuel : Nat) (calls : List (Nat × Char)) :
    ∀ (s : DisplayLink), s.PORTD < 256 → (∀ p ∈ calls, p.1 < 256) →
    ∃ t, sendAll (fuel + 2) s calls
          = some (t, calls.map (fun p => (decide (p.2 = '1'), p.1)))
      ∧ t.PORTD < 256 := by
  induction calls with
  | nil => intro s hD _; exact ⟨s, rfl, hD⟩
  | cons p rest ih =>
    intro s hD hb
    obtain ⟨b, c⟩ := p
    obtain ⟨t, ht, htD, _⟩ := sendByteToDisplay_delivers fuel s b c hD (hb (b, c) (by simp))
    obtain ⟨u, hu, huD⟩ := ih t htD (fun q hq => hb q (by simp [hq]))
    refine ⟨u, ?_, huD⟩
    simp [sendAll, ht, hu]

/-! ## Display link: the claims -/

/-- C10: a clock tick that drives the clock high while a byte is pending
latches the whole byte at once.  For every byte `byteToSend`, every
`isCommand` value and every prior state of the two 8-bit ports with the clock
bit low: afterwards PORTB bit 1 is bit 7 of the byte, PORTB bit 0 is bit 6,
PORTD bits 7..2 are bits 5..0, so `((PORTB & 3) << 6) | (PORTD >> 2)` is the
byte; the A0 bit is set exactly when `isCommand` is '1'; and
`byteAwaitingTransmission` is '0'. -/
theorem clockTick_latches_whole_byte (s : DisplayLink)
    (hD : s.PORTD < 256) (hb : s.byteToSend < 256)
    (hclk : s.PORTB &&& CLOCK_PIN = 0) (hpend : s.byteAwaitingTransmission = '1') :
    (clockTick s).PORTB &&& CLOCK_PIN = CLOCK_PIN
    ∧ (clockTick s).PORTB.testBit 1 = s.byteToSend.testBit 7
    ∧ (clockTick s).PORTB.testBit 0 = s.byteToSend.testBit 6
    ∧ (∀ i, i < 6 → (clockTick s).PORTD.testBit (i + 2) = s.byteToSend.testBit i)
    ∧ ((((clockTick s).PORTB &&& 3) <<< 6) ||| ((clockTick s).PORTD >>> 2)) = s.byteToSend
    ∧ (((clockTick s).PORTB &&& A0_PIN) = A0_PIN ↔ s.isCommand = '1')
    ∧ (clockTick s).byteAwaitingTransmission = '0' := by
  rw [clockTick_latch s hclk hpend]
  refine ⟨?_, ?_, ?_, ?_, ?_, ?_, rfl⟩
  · have hhigh := (clock_high_after_iff s.PORTB).mpr hclk
    have e : CLOCK_PIN = 2 ^ 3 := rfl
    rw [e, and_two_pow_eq_iff] at hhigh ⊢
    simp only [testBit_latched_PORTB]
    simpa using hhigh
  · simp only [testBit_latched_PORTB]; simp
  · simp only [testBit_latched_PORTB]; simp
  · intro i hi
    simp only [testBit_latched_PORTD]
    have h : 2 ≤ i + 2 ∧ i + 2 ≤ 7 := by omega
    simp [h]
  · exact dataLines_latched _ _ _ _ hD hb
  · have e : A0_PIN = 2 ^ 2 := rfl
    rw [e, and_two_pow_eq_iff]
    simp only [testBit_latched_PORTB]
    simp

/-- Witness for C10: a pending command byte 0xA5 with the clock low, port B
holding 0x17 and port D holding 0xFF. -/
theorem clockTick_latches_whole_byte_witness :
    (clockTick ⟨0x17, 0xFF, 0xA5, '1', '1'⟩).PORTB &&& CLOCK_PIN = CLOCK_PIN
    ∧ (clockTick ⟨0x17, 0xFF, 0xA5, '1', '1'⟩).PORTB.testBit 1 = Nat.testBit 0xA5 7
    ∧ (clockTick ⟨0x17, 0xFF, 0xA5, '1', '1'⟩).PORTB.testBit 0 = Nat.testBit 0xA5 6
    ∧ (∀ i, i < 6 →
        (clockTick ⟨0x17, 0xFF, 0xA5, '1', '1'⟩).PORTD.testBit (i + 2) = Nat.testBit 0xA5 i)
    ∧ ((((clockTick ⟨0x17, 0xFF, 0xA5, '1', '1'⟩).PORTB &&& 3) <<< 6)
        ||| ((clockTick ⟨0x17, 0xFF, 0xA5, '1', '1'⟩).PORTD >>> 2)) = 0xA5
    ∧ (((clockTick ⟨0x17, 0xFF, 0xA5, '1', '1'⟩).PORTB &&& A0_PIN) = A0_PIN
        ↔ ('1' : Char) = '1')
    ∧ (clockTick ⟨0x17, 0xFF, 0xA5, '1', '1'⟩).byteAwaitingTransmission = '0' :=
  clockTick_latches_whole_byte ⟨0x17, 0xFF, 0xA5, '1', '1'⟩
    (by decide) (by decide) (by decide) rfl

/-- C2: every byte handed to `sendByteToDisplay` is delivered once and in
order.  For every list of (byte, isCommand) calls made one after another from
any state of the link, with the clock-tick handler run until each call's busy
flag clears (two ticks always suffice, so every call returns), the (A0 level,
data-line byte) pairs seen at the latching ticks are exactly the submitted
pairs, in call order, none skipped or repeated. -/
theorem sendAll_delivers_in_order (fuel : Nat) (calls : List (Nat × Char))
    (s : DisplayLink) (hD : s.PORTD < 256) (hb : ∀ p ∈ calls, p.1 < 256) :
    ∃ t, sendAll (fuel + 2) s calls
          = some (t, calls.map (fun p => (decide (p.2 = '1'), p.1))) := by
  obtain ⟨t, ht, _⟩ := sendAll_delivers fuel calls s hD hb
  exact ⟨t, ht⟩

/-- Witness for C2: four calls from the reset state of the link, run with
exactly two ticks of fuel per call. -/
theorem sendAll_delivers_in_order_witness :
    ∃ t, sendAll (0 + 2) ⟨0, 0, 0, '0', '0'⟩ [(0x40, '1'), (0xA5, '0'), (255, '0'), (0, '1')]
          = some (t, [(0x40, '1'), (0xA5, '0'), (255, '0'), ((0 : Nat), '1')].map
              (fun p => (decide (p.2 = '1'), p.1))) :=
  sendAll_delivers_in_order 0 [(0x40, '1'), (0xA5, '0'), (255, '0'), (0, '1')]
    ⟨0, 0, 0, '0', '0'⟩ (by decide) (by decide)

/-! ## Single-button debounce -/

theorem buttonPolls_read (n : Nat) (s : Button) (h : s.buttonRead = '1') :
    buttonPolls n s = (s, 0) := by
  induction n with
  | zero => rfl
  | succ n ih =>
    have hp : buttonPoll s = (s, false) := by simp [buttonPoll, h]
    simp [buttonPolls, hp, ih]

/-- While the button stays down after its event was consumed, further ticks
and passes consume nothing and keep the mode. -/
theorem holdButton_consumed (sched : List (Nat × Nat)) : ∀ (s : Button),
    (∀ p ∈ sched, p.1 &&& BUTTON_PIN = BUTTON_PIN) →
    s.prevButtonInput = '1' → s.buttonRead = '1' →
    (holdButton s sched).2 = 0 ∧ (holdButton s sched).1.mode = s.mode := by
  induction sched with
  | nil => intro s _ _ _; exact ⟨rfl, rfl⟩
  | cons p rest ih =>
    intro s hhigh hp hr
    obtain ⟨portB, n⟩ := p
    have hB : portB &&& BUTTON_PIN = BUTTON_PIN := hhigh (portB, n) (by simp)
    have ht : buttonTick s portB = { s with buttonInput := '0' } := by
      simp [buttonTick, hB, hp, hr]
    have hq := buttonPolls_read n { s with buttonInput := '0' } hr
    have := ih { s with buttonInput := '0' } (fun q hq => hhigh q (by simp [hq])) hp hr
    simp only [holdButton, ht, hq]
    simpa using this

/-- C3: one sustained press is one event.  From a state in which the button
was released at the previous tick (`prevButtonInput` is '0'; the released
state of the claim, with `buttonInput` '0', is one such state), whatever
`buttonRead` and the mode are, K >= 1 consecutive ticks that read the button
line high, each followed by at least one pass of the main loop, make the main
loop consume exactly one event and advance the mode exactly once. -/
theorem holdButton_one_event (s : Button) (sched : List (Nat × Nat))
    (hprev : s.prevButtonInput = '0') (hK : sched ≠ [])
    (hhigh : ∀ p ∈ sched, p.1 &&& BUTTON_PIN = BUTTON_PIN)
    (hpoll : ∀ p ∈ sched, 1 ≤ p.2) :
    (holdButton s sched).2 = 1
    ∧ (holdButton s sched).1.mode = advanceMode s.mode := by
  cases sched with
  | nil => exact absurd rfl hK
  | cons p rest =>
    obtain ⟨portB, n⟩ := p
    have hB : portB &&& BUTTON_PIN = BUTTON_PIN := hhigh (portB, n) (by simp)
    obtain ⟨k, rfl⟩ : ∃ k, n = k + 1 :=
      ⟨n - 1, by have := hpoll (portB, n) (by simp); simp at this; omega⟩
    have ht : buttonTick s portB
        = { s with buttonInput := '1', buttonRead := '0', prevButtonInput := '1' } := by
      simp [buttonTick, hB, hprev]
    have hp : buttonPoll { s with buttonInput := '1', buttonRead := '0', prevButtonInput := '1' }
        = ({ s with buttonInput := '1', buttonRead := '1', prevButtonInput := '1',
                    mode := advanceMode s.mode }, true) := by
      simp [buttonPoll]
    have hq := buttonPolls_read k
      { s with buttonInput := '1', buttonRead := '1', prevButtonInput := '1',
               mode := advanceMode s.mode } rfl
    have hrest := holdButton_consumed rest
      { s with buttonInput := '1', buttonRead := '1', prevButtonInput := '1',
               mode := advanceMode s.mode } (fun q hq => hhigh q (by simp [hq])) rfl rfl
    simp only [holdButton, ht, buttonPolls, hp, hq]
    simpa using hrest

/-- Witness for C3: a press held for three ticks, with one, two and one
passes of the main loop after them, starting in mode 0. -/
theorem holdButton_one_event_witness :
    (holdButton ⟨'0', '0', '1', 0⟩ [(0x20, 1), (0x28, 2), (0x20, 1)]).2 = 1
    ∧ (holdButton ⟨'0', '0', '1', 0⟩ [(0x20, 1), (0x28, 2), (0x20, 1)]).1.mode
        = advanceMode 0 :=
  holdButton_one_event ⟨'0', '0', '1', 0⟩ [(0x20, 1), (0x28, 2), (0x20, 1)] rfl
    (by decide) (by decide) (by decide)

/-! ## Mode dispatcher: lemmas -/

theorem setSlot_mode (s : Calc) (eq : Char) (buf : List Nat) :
    (s.setSlot eq buf).mode = s.mode ∧ (s.setSlot eq buf).prevMode = s.prevMode := by
  unfold Calc.setSlot
  split_ifs <;> exact ⟨rfl, rfl⟩

theorem setSlot_self (s : Calc) (eq : Char) (buf : List Nat) (h : s.slot eq = some buf) :
    s.setSlot eq buf = s := by
  unfold Calc.slot at h
  unfold Calc.setSlot
  split_ifs at h ⊢ <;> (injection h with h; subst h; rfl)

/-- Inputs other than ModeTransition and Execute leave `mode` and `prevMode`
as they are. -/
theorem dispatch_keeps_modes (env : Collaborators) (s : Calc) (ty : Char) (c : Nat)
    (ht : ty ≠ 't') (he : ty ≠ 'e') :
    (dispatch env s ty c).mode = s.mode ∧ (dispatch env s ty c).prevMode = s.prevMode := by
  unfold dispatch
  simp only [ht, he, if_false]
  split_ifs
  · unfold dispatchPrintable
    split_ifs
    · exact ⟨rfl, rfl⟩
    · exact ⟨rfl, rfl⟩
    · split
      · split_ifs
        · exact setSlot_mode _ _ _
        · exact ⟨rfl, rfl⟩
      · exact ⟨rfl, rfl⟩
    · exact ⟨rfl, rfl⟩
    · exact ⟨rfl, rfl⟩
    · exact ⟨rfl, rfl⟩
  · exact ⟨rfl, rfl⟩
  · unfold dispatchCursor
    simp only
    split_ifs <;> exact ⟨rfl, rfl⟩
  · unfold dispatchDelete
    split_ifs
    · exact ⟨rfl, rfl⟩
    · exact ⟨rfl, rfl⟩
    · split
      · exact setSlot_mode _ _ _
      · exact ⟨rfl, rfl⟩
    · exact ⟨rfl, rfl⟩
  · exact ⟨rfl, rfl⟩

theorem dispatchAll_keeps_modes (env : Collaborators) (inputs : List (Char × Nat)) :
    ∀ (s : Calc), (∀ i ∈ inputs, i.1 ≠ 't' ∧ i.1 ≠ 'e') →
    (dispatchAll env s inputs).mode = s.mode
      ∧ (dispatchAll env s inputs).prevMode = s.prevMode := by
  induction inputs with
  | nil => intro s _; exact ⟨rfl, rfl⟩
  | cons i rest ih =>
    intro s h
    have h1 := dispatch_keeps_modes env s i.1 i.2 (h i (by simp)).1 (h i (by simp)).2
    have h2 := ih (dispatch env s i.1 i.2) (fun j hj => h j (by simp [hj]))
    simp only [dispatchAll, List.foldl_cons] at h2 ⊢
    exact ⟨h2.1.trans h1.1, h2.2.trans h1.2⟩

theorem dispatchTransition_into_f (env : Collaborators) (s : Calc) (c : Nat)
    (hf : env.getNextMode c = 'f') :
    (dispatch env s 't' c).mode = 'f' ∧ (dispatch env s 't' c).prevMode = s.mode := by
  have h1 : ('t' : Char) ≠ 'p' := by decide
  have h2 : ('t' : Char) ≠ 'a' := by decide
  have hc : ('f' : Char) ≠ 'c' := by decide
  have hg : ('f' : Char) ≠ 'g' := by decide
  have he : ('f' : Char) ≠ 'e' := by decide
  simp only [dispatch, h1, h2, if_false, if_true, dispatchTransition, hf, hc, hg, he]
  exact ⟨trivial, trivial⟩

theorem dispatchExecute_from_f (env : Collaborators) (s : Calc)
    (hm : s.mode = 'f') (hv : env.parseFunctionChoice s.functionTextSelBuffer ≥ 0) :
    (dispatchExecute env s).mode = s.prevMode
      ∧ (dispatchExecute env s).specialFunctionPasted = '1' := by
  have hc : ('f' : Char) ≠ 'c' := by decide
  have he : ('f' : Char) ≠ 'e' := by decide
  unfold dispatchExecute
  simp only [hm, hc, he, if_false, if_true, hv]
  split_ifs
  · exact ⟨rfl, trivial⟩
  · refine ⟨?_, trivial⟩
    simp only
    split
    · exact (setSlot_mode _ _ _).1
    · rfl
  · exact ⟨rfl, trivial⟩

theorem text_fillWithNulls (n : Nat) : text (fillWithNulls n) = [] := by
  cases n <;> simp [fillWithNulls, List.replicate_succ, text]

/-- A Printable input on the command line with null cells left after the
typed text appends the character to the text. -/
theorem printable_commandLine (env : Collaborators) (s : Calc) (c : Nat)
    (pre : List Nat) (k : Nat) (hm : s.mode = 'c')
    (hb : s.textBuffer = pre ++ List.replicate (k + 2) 0)
    (hi : s.textBufferIndex = pre.length) :
    (dispatch env s 'p' c).mode = 'c'
    ∧ (dispatch env s 'p' c).textBuffer = (pre ++ [c]) ++ List.replicate (k + 1) 0
    ∧ (dispatch env s 'p' c).textBufferIndex = ((pre ++ [c]).length : Nat) := by
  have hroom : s.textBufferIndex < (GraphingCalc.sizeOf s.textBuffer : Int) - 1 := by
    rw [hi, hb]
    simp [GraphingCalc.sizeOf]
    omega
  simp only [dispatch, if_true, dispatchPrintable]
  rw [if_pos hm, if_pos hroom]
  refine ⟨hm, ?_, ?_⟩
  · simp only [hb, hi, writeAt]
    simp [List.replicate_succ]
  · simp only [hi]
    simp

/-- Execute on the command line hands the buffer to `printCmdOutput`, then
clears it and resets the index. -/
theorem execute_commandLine (env : Collaborators) (s : Calc) (c : Nat) (hm : s.mode = 'c') :
    Call.printCmdOutput s.textCursorPos s.textBuffer ∈ (dispatch env s 'e' c).calls
    ∧ (dispatch env s 'e' c).textBuffer = fillWithNulls (GraphingCalc.sizeOf s.textBuffer)
    ∧ (dispatch env s 'e' c).textBufferIndex = 0 := by
  have h1 : ('e' : Char) ≠ 'p' := by decide
  have h2 : ('e' : Char) ≠ 'a' := by decide
  have h3 : ('e' : Char) ≠ 't' := by decide
  simp only [dispatch, h1, h2, h3, if_true, if_false, dispatchExecute, clearBuffer]
  rw [if_pos hm]
  refine ⟨?_, ?_, rfl⟩
  · simp only
    split_ifs <;> simp
  · simp only
    split_ifs <;> rfl

/-! ## Mode dispatcher: the claims -/

/-- C4: the function menu returns to the mode that invoked it.  For every
invoking mode (the mode of `s`, CommandLine included) and every set of
collaborators: a ModeTransition whose code selects FunctionMenu, then any
inputs that are neither ModeTransition nor Execute (the selection being
typed), then an Execute whose selection parses to a function id >= 0, leave
`mode` equal to the invoking mode and `specialFunctionPasted` equal to '1'. -/
theorem functionMenu_returns_to_invoker (env : Collaborators) (s : Calc) (c c2 : Nat)
    (typed : List (Char × Nat))
    (hf : env.getNextMode c = 'f')
    (htyped : ∀ i ∈ typed, i.1 ≠ 't' ∧ i.1 ≠ 'e')
    (hvalid : env.parseFunctionChoice
      (dispatchAll env (dispatch env s 't' c) typed).functionTextSelBuffer ≥ 0) :
    (dispatch env (dispatchAll env (dispatch env s 't' c) typed) 'e' c2).mode = s.mode
    ∧ (dispatch env (dispatchAll env (dispatch env s 't' c) typed) 'e' c2).specialFunctionPasted
        = '1' := by
  obtain ⟨hm, hp⟩ := dispatchTransition_into_f env s c hf
  obtain ⟨hm2, hp2⟩ := dispatchAll_keeps_modes env typed (dispatch env s 't' c) htyped
  have hex := dispatchExecute_from_f env (dispatchAll env (dispatch env s 't' c) typed)
    (hm2.trans hm) hvalid
  have h1 : ('e' : Char) ≠ 'p' := by decide
  have h2 : ('e' : Char) ≠ 'a' := by decide
  have h3 : ('e' : Char) ≠ 't' := by decide
  have hd : dispatch env (dispatchAll env (dispatch env s 't' c) typed) 'e' c2
      = dispatchExecute env (dispatchAll env (dispatch env s 't' c) typed) := by
    simp only [dispatch, h1, h2, h3, if_false, if_true]
  rw [hd]
  exact ⟨hex.1.trans (hp2.trans hp), hex.2⟩

/-- Witness for C4: from the command line of the freshly started program the
menu is entered with code 7, '1' is typed and Execute pressed. -/
theorem functionMenu_returns_to_invoker_witness :
    (dispatch sampleCollaborators
        (dispatchAll sampleCollaborators
          (dispatch sampleCollaborators (Calc.init 120 200 3) 't' 7) [('p', '1'.toNat)])
        'e' 0).mode = (Calc.init 120 200 3).mode
    ∧ (dispatch sampleCollaborators
        (dispatchAll sampleCollaborators
          (dispatch sampleCollaborators (Calc.init 120 200 3) 't' 7) [('p', '1'.toNat)])
        'e' 0).specialFunctionPasted = '1' :=
  functionMenu_returns_to_invoker sampleCollaborators (Calc.init 120 200 3) 7 0
    [('p', '1'.toNat)] rfl (by decide) (by decide)

set_option maxRecDepth 20000 in
/-- C5 (as stated, refuted): a buffer at capacity does not reject a Printable
input when the cursor is not at its end.  Equation slot `a` holding a full
text of 119 letters with the cursor on the last letter, and the 3-byte
selection buffer holding "12" after one cursor-left: in both the text fills
the buffer, yet the input overwrites the character under the cursor, the
index advances and the character is echoed through `drawCharacter`. -/
theorem printable_on_full_buffer_overwrites :
    (strlen fullSlotState.equA + 1 = GraphingCalc.sizeOf fullSlotState.equA
      ∧ (dispatch sampleCollaborators fullSlotState 'p' 'x'.toNat).equA
          = List.replicate 118 65 ++ ['x'.toNat, 0]
      ∧ (dispatch sampleCollaborators fullSlotState 'p' 'x'.toNat).equA
          ≠ fullSlotState.equA
      ∧ (dispatch sampleCollaborators fullSlotState 'p' 'x'.toNat).equationIndex = 119
      ∧ (dispatch sampleCollaborators fullSlotState 'p' 'x'.toNat).calls
          = fullSlotState.calls ++ [Call.drawCharacter 'x'.toNat 0])
    ∧ (fullSelectionState.mode = 'f'
      ∧ fullSelectionState.functionTextSelBuffer = ['1'.toNat, '2'.toNat, 0]
      ∧ strlen fullSelectionState.functionTextSelBuffer + 1
          = GraphingCalc.sizeOf fullSelectionState.functionTextSelBuffer
      ∧ fullSelectionState.functionIndex = 1
      ∧ (dispatch sampleCollaborators fullSelectionState 'p' '3'.toNat).functionTextSelBuffer
          = ['1'.toNat, '3'.toNat, 0]
      ∧ (dispatch sampleCollaborators fullSelectionState 'p' '3'.toNat).functionIndex = 2) := by
  decide

/-- C5 (amended): a Printable input is rejected when the active index has
reached the last cell.  For every mode with an active buffer (the command
buffer, the selected slot `a`..`f`, the selection buffer), every set of
collaborators and every character: if the active index is at or past
`sizeOf(buffer) - 1`, the dispatch changes nothing at all, so the text, the
index and `textCursorPos` stay as they were and no `drawCharacter` call is
added. -/
theorem printable_at_last_cell_rejected (env : Collaborators) (s : Calc) (c : Nat)
    (buf : List Nat) (hact : s.activeBuffer = some buf)
    (hidx : (GraphingCalc.sizeOf buf : Int) - 1 ≤ s.activeIndex) :
    dispatch env s 'p' c = s := by
  have hfc : ('f' : Char) ≠ 'c' := by decide
  have hfe : ('f' : Char) ≠ 'e' := by decide
  have hec : ('e' : Char) ≠ 'c' := by decide
  unfold Calc.activeBuffer at hact
  unfold Calc.activeIndex at hidx
  simp only [dispatch, if_true, dispatchPrintable]
  by_cases hc : s.mode = 'c'
  · simp only [hc, if_true] at hact hidx ⊢
    injection hact with hact
    subst hact
    rw [if_neg (by omega)]
  · by_cases he : s.mode = 'e'
    · simp only [he, hec, if_true, if_false] at hact hidx ⊢
      rw [hact]
      simp only
      rw [if_neg (by omega)]
    · by_cases hf : s.mode = 'f'
      · simp only [hf, hfc, hfe, if_true, if_false] at hact hidx ⊢
        injection hact with hact
        subst hact
        rw [if_neg (by omega)]
      · simp only [hc, he, hf, if_false] at hact
        exact absurd hact (by simp)

set_option maxRecDepth 20000 in
/-- Witness for C5 (amended): equation slot `a` of the real size with the
index on its last cell, 119. -/
theorem printable_at_last_cell_rejected_witness :
    dispatch sampleCollaborators { fullSlotState with equationIndex := 119 } 'p' 'x'.toNat
      = { fullSlotState with equationIndex := 119 } :=
  printable_at_last_cell_rejected sampleCollaborators
    { fullSlotState with equationIndex := 119 } 'x'.toNat (List.replicate 119 65 ++ [0])
    (by decide) (by decide)

/-- C6: a Delete past the end of the text is rejected.  For every mode with
an active buffer and every active index at or past the buffer's text length,
`deleteAt` reports `OutOfRange` and the Delete dispatch leaves the whole
state, the buffer included, unchanged. -/
theorem delete_past_end_rejected (env : Collaborators) (s : Calc) (c : Nat)
    (buf : List Nat) (hact : s.activeBuffer = some buf)
    (hidx : (strlen buf : Int) ≤ s.activeIndex) :
    deleteAt buf s.activeIndex = Except.error StoreError.OutOfRange
    ∧ dispatch env s 'd' c = s := by
  have hdel : ∀ i : Int, (strlen buf : Int) ≤ i →
      deleteAt buf i = Except.error StoreError.OutOfRange := by
    intro i hi
    unfold deleteAt
    rw [if_neg (by omega)]
  have hrm : ∀ i : Int, (strlen buf : Int) ≤ i → removeFromString buf i = buf := by
    intro i hi
    simp only [removeFromString, hdel i hi]
  refine ⟨hdel _ hidx, ?_⟩
  have h1 : ('d' : Char) ≠ 'p' := by decide
  have h2 : ('d' : Char) ≠ 'a' := by decide
  have h3 : ('d' : Char) ≠ 't' := by decide
  have h4 : ('d' : Char) ≠ 'e' := by decide
  have h5 : ('d' : Char) ≠ 'c' := by decide
  have hfc : ('f' : Char) ≠ 'c' := by decide
  have hfe : ('f' : Char) ≠ 'e' := by decide
  have hec : ('e' : Char) ≠ 'c' := by decide
  have hef : ('e' : Char) ≠ 'f' := by decide
  unfold Calc.activeBuffer at hact
  unfold Calc.activeIndex at hidx
  simp only [dispatch, h1, h2, h3, h4, h5, if_true, if_false, dispatchDelete]
  by_cases hc : s.mode = 'c'
  · rw [if_pos hc]
    simp only [hc, if_true] at hact hidx
    injection hact with hact
    subst hact
    rw [hrm _ hidx]
  · by_cases hf : s.mode = 'f'
    · rw [if_neg hc, if_pos hf]
      simp only [hf, hfc, hfe, if_true, if_false] at hact hidx
      injection hact with hact
      subst hact
      rw [hrm _ hidx]
    · by_cases he : s.mode = 'e'
      · rw [if_neg hc, if_neg hf, if_pos he]
        simp only [he, hec, hef, if_true, if_false] at hact hidx
        rw [hact]
        simp only [hrm _ hidx]
        exact setSlot_self s _ buf hact
      · simp only [hc, he, hf, if_false] at hact
        exact absurd hact (by simp)

set_option maxRecDepth 20000 in
/-- Witness for C6: "12" typed on the command line of the freshly started
program, the index left at 2, the length of the text. -/
theorem delete_past_end_rejected_witness :
    deleteAt ('1'.toNat :: '2'.toNat :: List.replicate 198 0)
        (dispatchAll sampleCollaborators (Calc.init 120 200 3)
          [('p', '1'.toNat), ('p', '2'.toNat)]).activeIndex
      = Except.error StoreError.OutOfRange
    ∧ dispatch sampleCollaborators
        (dispatchAll sampleCollaborators (Calc.init 120 200 3)
          [('p', '1'.toNat), ('p', '2'.toNat)]) 'd' 0
      = dispatchAll sampleCollaborators (Calc.init 120 200 3)
          [('p', '1'.toNat), ('p', '2'.toNat)] :=
  delete_past_end_rejected sampleCollaborators
    (dispatchAll sampleCollaborators (Calc.init 120 200 3)
      [('p', '1'.toNat), ('p', '2'.toNat)]) 0
    ('1'.toNat :: '2'.toNat :: List.replicate 198 0) (by decide) (by decide)

/-- C7: end-to-end command entry.  In CommandLine mode with the command
buffer as `main` allocates it (200 null bytes) and `textBufferIndex` 0,
whatever the rest of the state and the collaborators are: after the decoded
inputs '7', '+', '2' the buffer's text is "7+2"; the Execute that follows
hands exactly that buffer to `printCmdOutput`, and leaves the buffer empty
(every cell null) with `textBufferIndex` 0. -/
theorem command_entry_end_to_end (env : Collaborators) (s : Calc) (c : Nat)
    (hmode : s.mode = 'c') (hbuf : s.textBuffer = fillWithNulls TEXT_BUFFER_SIZE)
    (hidx : s.textBufferIndex = 0) :
    text (dispatchAll env s [('p', '7'.toNat), ('p', '+'.toNat), ('p', '2'.toNat)]).textBuffer
      = "7+2".toList.map Char.toNat
    ∧ Call.printCmdOutput
        (dispatchAll env s
          [('p', '7'.toNat), ('p', '+'.toNat), ('p', '2'.toNat)]).textCursorPos
        (dispatchAll env s
          [('p', '7'.toNat), ('p', '+'.toNat), ('p', '2'.toNat)]).textBuffer
      ∈ (dispatch env
          (dispatchAll env s [('p', '7'.toNat), ('p', '+'.toNat), ('p', '2'.toNat)])
          'e' c).calls
    ∧ (dispatch env
        (dispatchAll env s [('p', '7'.toNat), ('p', '+'.toNat), ('p', '2'.toNat)])
        'e' c).textBuffer = fillWithNulls TEXT_BUFFER_SIZE
    ∧ text (dispatch env
        (dispatchAll env s [('p', '7'.toNat), ('p', '+'.toNat), ('p', '2'.toNat)])
        'e' c).textBuffer = []
    ∧ (dispatch env
        (dispatchAll env s [('p', '7'.toNat), ('p', '+'.toNat), ('p', '2'.toNat)])
        'e' c).textBufferIndex = 0 := by
  have hb0 : s.textBuffer = [] ++ List.replicate (198 + 2) 0 := hbuf
  obtain ⟨m1, b1, i1⟩ := printable_commandLine env s '7'.toNat [] 198 hmode hb0 hidx
  obtain ⟨m2, b2, i2⟩ := printable_commandLine env _ '+'.toNat _ 197 m1 b1 i1
  obtain ⟨m3, b3, i3⟩ := printable_commandLine env _ '2'.toNat _ 196 m2 b2 i2
  have htyped : dispatchAll env s [('p', '7'.toNat), ('p', '+'.toNat), ('p', '2'.toNat)]
      = dispatch env (dispatch env (dispatch env s 'p' '7'.toNat) 'p' '+'.toNat)
          'p' '2'.toNat := rfl
  rw [htyped]
  obtain ⟨e1, e2, e3⟩ := execute_commandLine env _ c m3
  have hsize : GraphingCalc.sizeOf
      (dispatch env (dispatch env (dispatch env s 'p' '7'.toNat) 'p' '+'.toNat)
        'p' '2'.toNat).textBuffer = TEXT_BUFFER_SIZE := by
    rw [b3]
    simp only [GraphingCalc.sizeOf, List.length_append, List.length_replicate,
      List.length_cons, List.length_nil, TEXT_BUFFER_SIZE]
  rw [hsize] at e2
  refine ⟨?_, e1, e2, ?_, e3⟩
  · rw [b3]
    simp [text, List.replicate_succ]
  · rw [e2]
    exact text_fillWithNulls _

/-- Witness for C7: the freshly started program with the sample
collaborators. -/
theorem command_entry_end_to_end_witness :
    text (dispatchAll sampleCollaborators (Calc.init 120 200 3)
        [('p', '7'.toNat), ('p', '+'.toNat), ('p', '2'.toNat)]).textBuffer
      = "7+2".toList.map Char.toNat
    ∧ (dispatch sampleCollaborators
        (dispatchAll sampleCollaborators (Calc.init 120 200 3)
          [('p', '7'.toNat), ('p', '+'.toNat), ('p', '2'.toNat)])
        'e' 0).textBuffer = fillWithNulls TEXT_BUFFER_SIZE
    ∧ (dispatch sampleCollaborators
        (dispatchAll sampleCollaborators (Calc.init 120 200 3)
          [('p', '7'.toNat), ('p', '+'.toNat), ('p', '2'.toNat)])
        'e' 0).textBufferIndex = 0 :=
  have h := command_entry_end_to_end sampleCollaborators (Calc.init 120 200 3) 0 rfl rfl rfl
  ⟨h.1, h.2.2.1, h.2.2.2.2⟩

/-! ## Display link: idle ticks and the clock line -/

/-- The state an idle clock-high tick leaves: port B holds only the clock
bit and port D is cleared. -/
theorem clockTick_idle (s : DisplayLink) (hclk : s.PORTB &&& CLOCK_PIN = 0)
    (hidle : s.byteAwaitingTransmission ≠ '1') :
    clockTick s = { s with PORTB := CLOCK_PIN, PORTD := 0 } := by
  have hhigh := (clock_high_after_iff s.PORTB).mpr hclk
  unfold clockTick
  simp only [hhigh, hidle, and_false, if_false, if_true]

/-- The clock bit of port B after one tick is the negation of the clock bit
before, in each of the three branches of the handler. -/
theorem clockTick_clock_bit (s : DisplayLink) :
    (clockTick s).PORTB.testBit 3 = !(s.PORTB.testBit 3) := by
  have e : CLOCK_PIN = 2 ^ 3 := rfl
  by_cases hclk : s.PORTB &&& CLOCK_PIN = 0
  · have hb : s.PORTB.testBit 3 = false := by
      rw [e] at hclk; exact (and_two_pow_eq_zero_iff s.PORTB 3).mp hclk
    by_cases hp : s.byteAwaitingTransmission = '1'
    · rw [clockTick_latch s hclk hp]
      simp only [testBit_latched_PORTB]
      simp [e, hb]
      decide
    · rw [clockTick_idle s hclk hp]
      simp [e, hb]
      decide
  · have hb : s.PORTB.testBit 3 = true := by
      cases h : s.PORTB.testBit 3
      · rw [e] at hclk; exact absurd ((and_two_pow_eq_zero_iff s.PORTB 3).mpr h) hclk
      · rfl
    rw [clockTick_falling s hclk]
    simp [e, hb]
    decide

/-- C11: the idle pattern.  For every prior state of the ports with the clock
bit low and no byte pending, the tick (which drives the clock high) leaves
all eight data lines low, PORTB bits 1..0 and PORTD bits 7..2 being 0, and
leaves the clock bit high. -/
theorem clockTick_idle_pattern (s : DisplayLink) (hclk : s.PORTB &&& CLOCK_PIN = 0)
    (hidle : s.byteAwaitingTransmission ≠ '1') :
    (clockTick s).PORTB.testBit 1 = false
    ∧ (clockTick s).PORTB.testBit 0 = false
    ∧ (∀ i, 2 ≤ i → i ≤ 7 → (clockTick s).PORTD.testBit i = false)
    ∧ dataLines (clockTick s) = 0
    ∧ (clockTick s).PORTB &&& CLOCK_PIN = CLOCK_PIN := by
  rw [clockTick_idle s hclk hidle]
  have h1 : Nat.testBit CLOCK_PIN 1 = false := by decide
  have h0 : Nat.testBit CLOCK_PIN 0 = false := by decide
  have hd : ((CLOCK_PIN &&& 3) <<< 6) ||| (0 >>> 2) = 0 := by decide
  have hc : CLOCK_PIN &&& CLOCK_PIN = CLOCK_PIN := by decide
  refine ⟨h1, h0, ?_, hd, hc⟩
  intro i _ _
  simp

/-- Witness for C11: port B 0x37 (clock low, data and A0 bits set), port D
0xFF, nothing pending. -/
theorem clockTick_idle_pattern_witness :
    (clockTick ⟨0x37, 0xFF, 0xA5, '0', '1'⟩).PORTB.testBit 1 = false
    ∧ (clockTick ⟨0x37, 0xFF, 0xA5, '0', '1'⟩).PORTB.testBit 0 = false
    ∧ (∀ i, 2 ≤ i → i ≤ 7 → (clockTick ⟨0x37, 0xFF, 0xA5, '0', '1'⟩).PORTD.testBit i = false)
    ∧ dataLines (clockTick ⟨0x37, 0xFF, 0xA5, '0', '1'⟩) = 0
    ∧ (clockTick ⟨0x37, 0xFF, 0xA5, '0', '1'⟩).PORTB &&& CLOCK_PIN = CLOCK_PIN :=
  clockTick_idle_pattern ⟨0x37, 0xFF, 0xA5, '0', '1'⟩ (by decide) (by decide)

/-- C12: the clock line toggles on every tick.  For every state, pending or
not and whatever the ports hold, the CLOCK_PIN bit of PORTB after one run of
the handler is the negation of the bit before, so two consecutive ticks
restore it. -/
theorem clockTick_toggles_clock (s : DisplayLink) :
    (clockTick s).PORTB.testBit 3 = !(s.PORTB.testBit 3)
    ∧ ((clockTick s).PORTB &&& CLOCK_PIN = CLOCK_PIN ↔ s.PORTB &&& CLOCK_PIN = 0)
    ∧ (clockTick (clockTick s)).PORTB.testBit 3 = s.PORTB.testBit 3 := by
  have e : CLOCK_PIN = 2 ^ 3 := rfl
  refine ⟨clockTick_clock_bit s, ?_, ?_⟩
  · rw [e, and_two_pow_eq_iff, and_two_pow_eq_zero_iff, clockTick_clock_bit]
    cases s.PORTB.testBit 3 <;> simp
  · rw [clockTick_clock_bit, clockTick_clock_bit]
    cases s.PORTB.testBit 3 <;> rfl

/-! ## Keypad queue: held keys, bounds and draining -/

/-- A tick that reads the same code as the tick before changes nothing. -/
theorem pollTick_same (q : KeyQueue) : pollTick q q.prevInput = q := by
  simp [pollTick, checkValidInput]

theorem pollTicks_same (k : Nat) (q : KeyQueue) :
    pollTicks q (List.replicate k q.prevInput) = q := by
  induction k with
  | zero => rfl
  | succ k ih =>
    simp only [pollTicks, List.replicate_succ, List.foldl_cons, pollTick_same] at ih ⊢
    exact ih

theorem pollTick_accept_room (q : KeyQueue) (c : Nat)
    (hv : checkValidInput c q.prevInput = '1')
    (hroom : q.nextBufferIndex < GraphingCalc.sizeOf q.inBuffer - 1) :
    pollTick q c = ⟨q.inBuffer.set q.nextBufferIndex c, c, q.nextBufferIndex + 1⟩ := by
  simp only [pollTick, hv, if_true]
  rw [if_pos hroom]
  simp [writeAt]

theorem strlen_le_length (buf : List Nat) : strlen buf ≤ buf.length := by
  induction buf with
  | nil => simp [strlen]
  | cons c cs ih =>
    simp only [strlen, List.length_cons]
    split_ifs <;> omega

theorem length_removeFromString (buf : List Nat) (idx : Int) :
    (removeFromString buf idx).length = buf.length := by
  unfold removeFromString deleteAt
  split_ifs with h
  · have h1 := strlen_le_length buf
    have h2 : idx.toNat < buf.length := by omega
    simp [List.length_eraseIdx, h2]
    omega
  · rfl

theorem length_writeAt (buf : List Nat) (idx : Int) (v : Nat) :
    (writeAt buf idx v).length = buf.length := by
  unfold writeAt
  split_ifs <;> simp

/-- One poll tick keeps the buffer size and keeps `nextBufferIndex` at most
`sizeOf(inBuffer) - 1`. -/
theorem pollTick_bounds (q : KeyQueue) (c : Nat)
    (hidx : q.nextBufferIndex ≤ GraphingCalc.sizeOf q.inBuffer - 1) :
    GraphingCalc.sizeOf (pollTick q c).inBuffer = GraphingCalc.sizeOf q.inBuffer
    ∧ (pollTick q c).nextBufferIndex ≤ GraphingCalc.sizeOf q.inBuffer - 1 := by
  unfold pollTick
  simp only [GraphingCalc.sizeOf] at hidx ⊢
  split_ifs with h1 h2
  · simp only [length_writeAt]
    exact ⟨trivial, by omega⟩
  · simp only [length_writeAt, length_removeFromString]
    exact ⟨trivial, le_refl _⟩
  · exact ⟨rfl, hidx⟩

theorem dequeue_bounds (q : KeyQueue)
    (hidx : q.nextBufferIndex ≤ GraphingCalc.sizeOf q.inBuffer - 1) :
    GraphingCalc.sizeOf q.dequeue.inBuffer = GraphingCalc.sizeOf q.inBuffer
    ∧ q.dequeue.nextBufferIndex ≤ GraphingCalc.sizeOf q.inBuffer - 1 := by
  simp only [KeyQueue.dequeue, GraphingCalc.sizeOf, length_removeFromString] at hidx ⊢
  exact ⟨trivial, by omega⟩

/-- Any schedule of ticks and drain iterations keeps the buffer size and the
bound on `nextBufferIndex`. -/
theorem runQueue_bounds (es : List QueueEvent) : ∀ (q : KeyQueue) (size : Nat),
    GraphingCalc.sizeOf q.inBuffer = size → q.nextBufferIndex ≤ size - 1 →
    GraphingCalc.sizeOf (runQueue q es).1.inBuffer = size
    ∧ (runQueue q es).1.nextBufferIndex ≤ size - 1 := by
  induction es with
  | nil => intro q size h1 h2; exact ⟨h1, h2⟩
  | cons e rest ih =>
    intro q size h1 h2
    cases e with
    | tick raw =>
      have hb := pollTick_bounds q raw (by rw [h1]; exact h2)
      simp only [runQueue]
      exact ih (pollTick q raw) size (hb.1.trans h1) (by rw [← h1]; exact hb.2)
    | drain =>
      simp only [runQueue]
      cases hf : q.front with
      | none => exact ih q size h1 h2
      | some c =>
        have hb := dequeue_bounds q (by rw [h1]; exact h2)
        exact ih q.dequeue size (hb.1.trans h1) (by rw [← h1]; exact hb.2)

theorem take_succ_set (buf : List Nat) : ∀ (i c : Nat), i < buf.length →
    (buf.set i c).take (i + 1) = buf.take i ++ [c] := by
  induction buf with
  | nil => intro i c h; simp at h
  | cons b bs ih =>
    intro i c h
    cases i with
    | zero => simp
    | succ i =>
      simp only [List.length_cons, Nat.add_lt_add_iff_right] at h
      simp [ih i c h]

theorem runQueue_nil (q : KeyQueue) : runQueue q [] = (q, []) := rfl

/-- C16: a held key is enqueued once.  For every valid code `c` (1..20),
every state whose `prevInput` differs from `c` and whose queue has room, and
every K = k + 1 >= 1: the first of K consecutive ticks reading `c` stores `c`
at `nextBufferIndex` and appends it to the queue contents, every further tick
reading `c` leaves the whole state unchanged, and so the K ticks together do
what the first one did. -/
theorem held_key_enqueued_once (q : KeyQueue) (c k : Nat)
    (hvalid : 1 ≤ c ∧ c ≤ 20) (hprev : q.prevInput ≠ c)
    (hroom : q.nextBufferIndex < GraphingCalc.sizeOf q.inBuffer - 1) :
    pollTick q c = ⟨q.inBuffer.set q.nextBufferIndex c, c, q.nextBufferIndex + 1⟩
    ∧ (pollTick q c).contents = q.contents ++ [c]
    ∧ pollTick (pollTick q c) c = pollTick q c
    ∧ pollTicks q (List.replicate (k + 1) c) = pollTick q c := by
  have hv : checkValidInput c q.prevInput = '1' :=
    (checkValidInput_eq_one_iff c q.prevInput).mpr ⟨fun h => hprev h.symm, hvalid⟩
  have h1 := pollTick_accept_room q c hv hroom
  have hp : (pollTick q c).prevInput = c := by rw [h1]
  have hlen : q.nextBufferIndex < q.inBuffer.length := by
    simp only [GraphingCalc.sizeOf] at hroom; omega
  refine ⟨h1, ?_, ?_, ?_⟩
  · rw [h1]
    simp only [KeyQueue.contents]
    exact take_succ_set q.inBuffer q.nextBufferIndex c hlen
  · have := pollTick_same (pollTick q c)
    rw [hp] at this
    exact this
  · have := pollTicks_same k (pollTick q c)
    rw [hp] at this
    simpa [pollTicks, List.replicate_succ] using this

/-- Witness for C16: key 5 held for four ticks on the empty queue of the
real size. -/
theorem held_key_enqueued_once_witness :
    pollTick (KeyQueue.init 540) 5
      = ⟨(KeyQueue.init 540).inBuffer.set (KeyQueue.init 540).nextBufferIndex 5, 5,
          (KeyQueue.init 540).nextBufferIndex + 1⟩
    ∧ (pollTick (KeyQueue.init 540) 5).contents = (KeyQueue.init 540).contents ++ [5]
    ∧ pollTick (pollTick (KeyQueue.init 540) 5) 5 = pollTick (KeyQueue.init 540) 5
    ∧ pollTicks (KeyQueue.init 540) (List.replicate (3 + 1) 5)
        = pollTick (KeyQueue.init 540) 5 :=
  held_key_enqueued_once (KeyQueue.init 540) 5 3 (by decide) (by decide)
    (by simp only [KeyQueue.init, GraphingCalc.sizeOf, fillWithNulls, List.length_replicate]
        decide)

/-- C17: the queue length stays within capacity.  From the initial state of
the 540-byte buffer, after every schedule of poll ticks (any raw codes) and
main-loop drain iterations, the buffer still has IN_BUFFER_SIZE cells,
`nextBufferIndex` is at most IN_BUFFER_SIZE - 1, and whatever raw code the
next tick reads, the cell it stores the code in has an index below
IN_BUFFER_SIZE; the drain writes only through `removeFromString`, which keeps
the buffer's size. -/
theorem queue_index_within_capacity (es : List QueueEvent) :
    GraphingCalc.sizeOf (runQueue (KeyQueue.init IN_BUFFER_SIZE) es).1.inBuffer
      = IN_BUFFER_SIZE
    ∧ (runQueue (KeyQueue.init IN_BUFFER_SIZE) es).1.nextBufferIndex ≤ IN_BUFFER_SIZE - 1
    ∧ (∀ raw i, pollTickStore (runQueue (KeyQueue.init IN_BUFFER_SIZE) es).1 raw = some i →
        i < IN_BUFFER_SIZE)
    ∧ GraphingCalc.sizeOf (runQueue (KeyQueue.init IN_BUFFER_SIZE) es).1.dequeue.inBuffer
        = IN_BUFFER_SIZE := by
  have hinit : GraphingCalc.sizeOf (KeyQueue.init IN_BUFFER_SIZE).inBuffer = IN_BUFFER_SIZE := by
    simp [KeyQueue.init, GraphingCalc.sizeOf, fillWithNulls]
  obtain ⟨h1, h2⟩ := runQueue_bounds es (KeyQueue.init IN_BUFFER_SIZE) IN_BUFFER_SIZE hinit
    (Nat.zero_le _)
  refine ⟨h1, h2, ?_, ?_⟩
  · intro raw i hi
    unfold pollTickStore at hi
    rw [h1] at hi
    have hS : IN_BUFFER_SIZE = 540 := rfl
    split_ifs at hi <;> injection hi with hi <;> omega
  · simp only [KeyQueue.dequeue, GraphingCalc.sizeOf, length_removeFromString]
    exact h1

/-- C19: the queue is drained first-in first-out.  For every list of at most
IN_BUFFER_SIZE - 1 accepted codes enqueued into the empty queue, as many
drain iterations as there are codes read exactly those codes, each once, in
enqueue order, and end with `nextBufferIndex` 0; after any smaller number `k`
of iterations `nextBufferIndex` is still the positive number of codes left,
so the loop runs exactly that many times. -/
theorem drain_is_fifo (codes : List Nat) (hacc : AcceptedRun 0 codes)
    (hn : codes.length ≤ IN_BUFFER_SIZE - 1) :
    (runQueue (KeyQueue.init IN_BUFFER_SIZE)
        (codes.map QueueEvent.tick ++ List.replicate codes.length QueueEvent.drain)).2 = codes
    ∧ (runQueue (KeyQueue.init IN_BUFFER_SIZE)
        (codes.map QueueEvent.tick
          ++ List.replicate codes.length QueueEvent.drain)).1.nextBufferIndex = 0
    ∧ (∀ k, k < codes.length →
        (runQueue (KeyQueue.init IN_BUFFER_SIZE)
          (codes.map QueueEvent.tick ++ List.replicate k QueueEvent.drain)).1.nextBufferIndex
          = codes.length - k
        ∧ (runQueue (KeyQueue.init IN_BUFFER_SIZE)
          (codes.map QueueEvent.tick ++ List.replicate k QueueEvent.drain)).2
          = codes.take k) := by
  have hS : IN_BUFFER_SIZE = 540 := rfl
  have hinit : KeyQueue.init IN_BUFFER_SIZE
      = ⟨[] ++ List.replicate IN_BUFFER_SIZE 0, 0, ([] : List Nat).length⟩ := rfl
  have hfill := pollTicks_room codes [] IN_BUFFER_SIZE 0 hacc (by omega)
  rw [← hinit] at hfill
  simp only [List.nil_append, List.length_nil, Nat.zero_add] at hfill
  have hnz := acceptedRun_ne_zero codes 0 hacc
  have hdrain : ∀ k, k ≤ codes.length →
      runQueue (KeyQueue.init IN_BUFFER_SIZE)
        (codes.map QueueEvent.tick ++ List.replicate k QueueEvent.drain)
      = (⟨codes.drop k ++ List.replicate (IN_BUFFER_SIZE - codes.length) 0
            ++ List.replicate k 0, codes.getLastD 0, codes.length - k⟩, codes.take k) := by
    intro k hk
    rw [runQueue_ticks, hfill]
    have hd := runQueue_drain (codes.take k)
      (codes.drop k ++ List.replicate (IN_BUFFER_SIZE - codes.length) 0)
      (codes.getLastD 0) (codes.length - k) []
      (fun x hx => hnz x (List.mem_of_mem_take hx))
    have hl : (codes.take k).length = k := by simp [hk]
    rw [hl] at hd
    have e1 : codes.take k ++ (codes.drop k ++ List.replicate (IN_BUFFER_SIZE - codes.length) 0)
        = codes ++ List.replicate (IN_BUFFER_SIZE - codes.length) 0 := by
      rw [← List.append_assoc, List.take_append_drop]
    have e2 : k + (codes.length - k) = codes.length := by omega
    rw [e1, e2, List.append_nil] at hd
    rw [hd, runQueue_nil]
    simp
  refine ⟨?_, ?_, ?_⟩
  · rw [hdrain codes.length (le_refl _)]
    simp
  · rw [hdrain codes.length (le_refl _)]
    simp
  · intro k hk
    rw [hdrain k (le_of_lt hk)]
    exact ⟨rfl, rfl⟩

/-- Witness for C19: the codes 3, 7, 3 enqueued and drained. -/
theorem drain_is_fifo_witness :
    (runQueue (KeyQueue.init IN_BUFFER_SIZE)
        ([3, 7, 3].map QueueEvent.tick ++ List.replicate [3, 7, 3].length QueueEvent.drain)).2
      = [3, 7, 3]
    ∧ (runQueue (KeyQueue.init IN_BUFFER_SIZE)
        ([3, 7, 3].map QueueEvent.tick
          ++ List.replicate [3, 7, 3].length QueueEvent.drain)).1.nextBufferIndex = 0 :=
  have h := drain_is_fifo [3, 7, 3] ⟨by decide, by decide, by decide, trivial⟩ (by decide)
  ⟨h.1, h.2.1⟩

/-! ## Mode dispatcher: transitions and the frame of an edit -/

theorem setSlot_fields (s : Calc) (eq : Char) (buf : List Nat) :
    (s.setSlot eq buf).textBuffer = s.textBuffer
    ∧ (s.setSlot eq buf).functionTextSelBuffer = s.functionTextSelBuffer
    ∧ (s.setSlot eq buf).textBufferIndex = s.textBufferIndex
    ∧ (s.setSlot eq buf).equationIndex = s.equationIndex
    ∧ (s.setSlot eq buf).functionIndex = s.functionIndex
    ∧ (s.setSlot eq buf).currentEquation = s.currentEquation := by
  unfold Calc.setSlot
  split_ifs <;> exact ⟨rfl, rfl, rfl, rfl, rfl, rfl⟩

theorem setSlot_equA (s : Calc) (cur : Char) (buf : List Nat) :
    (s.setSlot cur buf).equA = if cur = 'a' then buf else s.equA := by
  unfold Calc.setSlot
  split_ifs <;> rfl

theorem setSlot_equB (s : Calc) (cur : Char) (buf : List Nat) :
    (s.setSlot cur buf).equB = if cur = 'b' then buf else s.equB := by
  unfold Calc.setSlot
  split_ifs <;> first | rfl | simp_all

theorem setSlot_equC (s : Calc) (cur : Char) (buf : List Nat) :
    (s.setSlot cur buf).equC = if cur = 'c' then buf else s.equC := by
  unfold Calc.setSlot
  split_ifs <;> first | rfl | simp_all

theorem setSlot_equD (s : Calc) (cur : Char) (buf : List Nat) :
    (s.setSlot cur buf).equD = if cur = 'd' then buf else s.equD := by
  unfold Calc.setSlot
  split_ifs <;> first | rfl | simp_all

theorem setSlot_equE (s : Calc) (cur : Char) (buf : List Nat) :
    (s.setSlot cur buf).equE = if cur = 'e' then buf else s.equE := by
  unfold Calc.setSlot
  split_ifs <;> first | rfl | simp_all

theorem setSlot_equF (s : Calc) (cur : Char) (buf : List Nat) :
    (s.setSlot cur buf).equF = if cur = 'f' then buf else s.equF := by
  unfold Calc.setSlot
  split_ifs <;> first | rfl | simp_all

/-- Replacing the slot `cur` names, when it names one, makes it the new
buffer. -/
theorem slot_setSlot_self (s : Calc) (cur : Char) (buf b : List Nat)
    (h : s.slot cur = some b) : (s.setSlot cur buf).slot cur = some buf := by
  simp only [Calc.slot, setSlot_equA, setSlot_equB, setSlot_equC, setSlot_equD,
    setSlot_equE, setSlot_equF] at h ⊢
  split_ifs at h ⊢ <;> rfl

theorem slot_eq_of_fields (s r : Calc) (hA : r.equA = s.equA) (hB : r.equB = s.equB)
    (hC : r.equC = s.equC) (hD : r.equD = s.equD) (hE : r.equE = s.equE)
    (hF : r.equF = s.equF) (eq : Char) : r.slot eq = s.slot eq := by
  simp only [Calc.slot, hA, hB, hC, hD, hE, hF]

/-- A cursor move changes no buffer. -/
theorem cursor_buffers (env : Collaborators) (s : Calc) (c : Nat) :
    (dispatchCursor env s c).textBuffer = s.textBuffer
    ∧ (dispatchCursor env s c).functionTextSelBuffer = s.functionTextSelBuffer
    ∧ (dispatchCursor env s c).equA = s.equA ∧ (dispatchCursor env s c).equB = s.equB
    ∧ (dispatchCursor env s c).equC = s.equC ∧ (dispatchCursor env s c).equD = s.equD
    ∧ (dispatchCursor env s c).equE = s.equE ∧ (dispatchCursor env s c).equF = s.equF
    ∧ (dispatchCursor env s c).mode = s.mode
    ∧ (dispatchCursor env s c).currentEquation = s.currentEquation := by
  unfold dispatchCursor
  simp only
  split_ifs <;> exact ⟨rfl, rfl, rfl, rfl, rfl, rfl, rfl, rfl, rfl, rfl⟩

/-- What a ModeTransition leaves in `prevMode`, `mode` and
`currentEquation`. -/
theorem transition_fields (env : Collaborators) (s : Calc) (c : Nat) :
    (dispatchTransition env s c).prevMode = s.mode
    ∧ (dispatchTransition env s c).mode = env.getNextMode c
    ∧ (dispatchTransition env s c).currentEquation
        = if env.getNextMode c = 'e' then
            (if c = 1 then 'a' else if c = 2 then 'b' else if c = 3 then 'c'
              else if c = 4 then 'd' else if c = 5 then 'e' else if c = 6 then 'f'
              else s.currentEquation)
          else s.currentEquation := by
  have hce : ('c' : Char) ≠ 'e' := by decide
  have hgc : ('g' : Char) ≠ 'c' := by decide
  have hge : ('g' : Char) ≠ 'e' := by decide
  have hec : ('e' : Char) ≠ 'c' := by decide
  have heg : ('e' : Char) ≠ 'g' := by decide
  by_cases h1 : env.getNextMode c = 'c'
  · simp only [dispatchTransition, h1, hce, if_true, if_false]
    exact ⟨trivial, trivial, trivial⟩
  · by_cases h2 : env.getNextMode c = 'g'
    · simp only [dispatchTransition, h2, hgc, hge, if_true, if_false]
      exact ⟨trivial, trivial, trivial⟩
    · by_cases h3 : env.getNextMode c = 'e'
      · simp only [dispatchTransition, h3, hec, heg, if_true, if_false]
        refine ⟨?_, ?_, ?_⟩ <;> (split_ifs <;> rfl)
      · simp only [dispatchTransition, h1, h2, h3, if_false]
        refine ⟨?_, ?_, ?_⟩ <;> (split_ifs <;> rfl)

/-! ## Mode dispatcher: transitions and frame, the claims -/

/-- C18: a ModeTransition records the prior mode.  For every state (so every
mode m), every transition code `c` and every set of collaborators, the
dispatch leaves `prevMode` equal to m and `mode` equal to `getNextMode(c)`;
when the new mode is EquationEdit ('e') and `c` is one of 1..6,
`currentEquation` becomes the c-th of 'a'..'f'; for any other `c`, and for any
other new mode, `currentEquation` is unchanged. -/
theorem transition_records_prior_mode (env : Collaborators) (s : Calc) (c : Nat) :
    (dispatch env s 't' c).prevMode = s.mode
    ∧ (dispatch env s 't' c).mode = env.getNextMode c
    ∧ (env.getNextMode c = 'e' →
        (c = 1 → (dispatch env s 't' c).currentEquation = 'a')
        ∧ (c = 2 → (dispatch env s 't' c).currentEquation = 'b')
        ∧ (c = 3 → (dispatch env s 't' c).currentEquation = 'c')
        ∧ (c = 4 → (dispatch env s 't' c).currentEquation = 'd')
        ∧ (c = 5 → (dispatch env s 't' c).currentEquation = 'e')
        ∧ (c = 6 → (dispatch env s 't' c).currentEquation = 'f'))
    ∧ (¬ (1 ≤ c ∧ c ≤ 6) → (dispatch env s 't' c).currentEquation = s.currentEquation)
    ∧ (env.getNextMode c ≠ 'e' →
        (dispatch env s 't' c).currentEquation = s.currentEquation) := by
  have h1 : ('t' : Char) ≠ 'p' := by decide
  have h2 : ('t' : Char) ≠ 'a' := by decide
  have hd : dispatch env s 't' c = dispatchTransition env s c := by
    simp only [dispatch, h1, h2, if_false, if_true]
  obtain ⟨f1, f2, f3⟩ := transition_fields env s c
  rw [hd]
  refine ⟨f1, f2, ?_, ?_, ?_⟩
  · intro he
    rw [f3, if_pos he]
    refine ⟨?_, ?_, ?_, ?_, ?_, ?_⟩ <;> (intro hc; subst hc; rfl)
  · intro hc
    rw [f3]
    split_ifs <;> first | rfl | omega
  · intro hne
    rw [f3, if_neg hne]

theorem length_text (buf : List Nat) : (text buf).length = strlen buf := by
  induction buf with
  | nil => rfl
  | cons b bs ih =>
    simp only [text, strlen]
    split_ifs <;> simp [ih]

/-- Storing a non-null character over a character of the text replaces that
character and nothing else. -/
theorem text_set (buf : List Nat) : ∀ (i c : Nat), i < strlen buf → c ≠ 0 →
    text (buf.set i c) = (text buf).take i ++ [c] ++ (text buf).drop (i + 1) := by
  induction buf with
  | nil => intro i c h _; simp [strlen] at h
  | cons b bs ih =>
    intro i c h hc
    by_cases hb : b = 0
    · simp [strlen, hb] at h
    · cases i with
      | zero => simp [text, hb, hc]
      | succ i =>
        have h2 : i < strlen bs := by simp [strlen, hb] at h; exact h
        simp [text, hb, ih i c h2 hc]

theorem strlen_set (buf : List Nat) (i c : Nat) (h : i < strlen buf) (hc : c ≠ 0) :
    strlen (buf.set i c) = strlen buf := by
  have h1 := text_set buf i c h hc
  have h2 := congrArg List.length h1
  have h3 : i < (text buf).length := by rw [length_text]; exact h
  simp only [length_text, List.length_append, List.length_take, List.length_drop,
    List.length_singleton] at h2
  rw [length_text] at h3
  omega

/-- A Printable input with room at the cursor, in each mode that has an active
buffer: the character is stored in the cell under the cursor and the index
advances. -/
theorem printable_active (env : Collaborators) (s : Calc) (c : Nat) (buf : List Nat)
    (hact : s.activeBuffer = some buf) (hlo : 0 ≤ s.activeIndex)
    (hroom : s.activeIndex < (GraphingCalc.sizeOf buf : Int) - 1) :
    (dispatch env s 'p' c).activeBuffer = some (buf.set s.activeIndex.toNat c)
    ∧ (dispatch env s 'p' c).activeIndex = s.activeIndex + 1 := by
  have hfc : ('f' : Char) ≠ 'c' := by decide
  have hfe : ('f' : Char) ≠ 'e' := by decide
  have hec : ('e' : Char) ≠ 'c' := by decide
  unfold Calc.activeBuffer at hact
  unfold Calc.activeIndex at hlo hroom
  have hd : dispatch env s 'p' c = dispatchPrintable env s c := by
    simp only [dispatch, if_true]
  rw [hd]
  unfold dispatchPrintable
  by_cases hc : s.mode = 'c'
  · rw [if_pos hc]
    simp only [hc, if_true] at hact hlo hroom
    injection hact with hact
    subst hact
    rw [if_pos hroom]
    simp only [Calc.activeBuffer, Calc.activeIndex, hc, if_true, writeAt, hlo]
    exact ⟨trivial, trivial⟩
  · rw [if_neg hc]
    by_cases he : s.mode = 'e'
    · rw [if_pos he]
      simp only [he, hec, if_true, if_false] at hact hlo hroom
      rw [hact]
      simp only
      rw [if_pos hroom]
      obtain ⟨_, _, _, _, _, f6⟩ := setSlot_fields s s.currentEquation
        (writeAt buf s.equationIndex c)
      have hm := (setSlot_mode s s.currentEquation (writeAt buf s.equationIndex c)).1
      have hs := slot_setSlot_self s s.currentEquation (writeAt buf s.equationIndex c) buf hact
      simp only [Calc.activeBuffer, Calc.activeIndex, hm, he, hec, if_true, if_false, f6]
      refine ⟨?_, trivial⟩
      have : writeAt buf s.equationIndex c = buf.set s.equationIndex.toNat c := by
        simp only [writeAt, hlo, if_true]
      rw [← this, ← hs]
      rfl
    · rw [if_neg he]
      by_cases hf : s.mode = 'f'
      · rw [if_pos hf]
        simp only [hf, hfc, hfe, if_true, if_false] at hact hlo hroom
        injection hact with hact
        subst hact
        rw [if_pos hroom]
        simp only [Calc.activeBuffer, Calc.activeIndex, hf, hfc, hfe, if_true, if_false,
          writeAt, hlo]
        exact ⟨trivial, trivial⟩
      · simp only [hc, he, hf, if_false] at hact
        exact absurd hact (by simp)


set_option maxRecDepth 20000 in
/-- C14 (as stated, refuted): a Printable input does not insert at the cursor.
On the command line holding "ab", after one cursor-left (index 1, smaller than
the text length 2, buffer far from full), the input 'x' leaves the text "ax":
the length is still 2, not 3, and the 'b' under the cursor is overwritten,
where insertion would give "axb". -/
theorem printable_mid_text_overwrites :
    text typedAbState.textBuffer = "ab".toList.map Char.toNat
    ∧ (dispatch sampleCollaborators typedAbState 'c' '<'.toNat).textBufferIndex = 1
    ∧ text (dispatch sampleCollaborators
        (dispatch sampleCollaborators typedAbState 'c' '<'.toNat) 'p' 'x'.toNat).textBuffer
        = "ax".toList.map Char.toNat
    ∧ text (dispatch sampleCollaborators
        (dispatch sampleCollaborators typedAbState 'c' '<'.toNat) 'p' 'x'.toNat).textBuffer
        ≠ "axb".toList.map Char.toNat
    ∧ strlen (dispatch sampleCollaborators
        (dispatch sampleCollaborators typedAbState 'c' '<'.toNat) 'p' 'x'.toNat).textBuffer
        = 2 := by
  decide

/-- C14 (amended): a Printable input overwrites at the cursor.  For every
mode with an active buffer, every cursor index `i` with 0 <= i, i smaller
than the text length and room at the cursor (i < sizeOf(buffer) - 1), and
every non-null character `c`: the dispatch stores `c` in cell `i` of the
active buffer and advances the index by one; the text becomes
old[0..i) ++ [c] ++ old[i+1..], so its length is unchanged and exactly the
character under the cursor is replaced. -/
theorem printable_overwrites_at_cursor (env : Collaborators) (s : Calc) (c : Nat)
    (buf : List Nat) (hact : s.activeBuffer = some buf) (hc : c ≠ 0)
    (hlo : 0 ≤ s.activeIndex) (hi : s.activeIndex < (strlen buf : Int))
    (hroom : s.activeIndex < (GraphingCalc.sizeOf buf : Int) - 1) :
    (dispatch env s 'p' c).activeBuffer = some (buf.set s.activeIndex.toNat c)
    ∧ (dispatch env s 'p' c).activeIndex = s.activeIndex + 1
    ∧ text (buf.set s.activeIndex.toNat c)
        = (text buf).take s.activeIndex.toNat ++ [c]
          ++ (text buf).drop (s.activeIndex.toNat + 1)
    ∧ strlen (buf.set s.activeIndex.toNat c) = strlen buf := by
  obtain ⟨h1, h2⟩ := printable_active env s c buf hact hlo hroom
  have hi2 : s.activeIndex.toNat < strlen buf := by omega
  exact ⟨h1, h2, text_set buf _ c hi2 hc, strlen_set buf _ c hi2 hc⟩

set_option maxRecDepth 20000 in
/-- Witness for C14 (amended): 'x' typed over the 'b' of "ab" on the command
line. -/
theorem printable_overwrites_at_cursor_witness :
    (dispatch sampleCollaborators
        (dispatch sampleCollaborators typedAbState 'c' '<'.toNat) 'p' 'x'.toNat).activeBuffer
      = some (('a'.toNat :: 'b'.toNat :: List.replicate 198 0).set
          (dispatch sampleCollaborators typedAbState 'c' '<'.toNat).activeIndex.toNat
          'x'.toNat)
    ∧ (dispatch sampleCollaborators
        (dispatch sampleCollaborators typedAbState 'c' '<'.toNat) 'p' 'x'.toNat).activeIndex
      = (dispatch sampleCollaborators typedAbState 'c' '<'.toNat).activeIndex + 1 :=
  have h := printable_overwrites_at_cursor sampleCollaborators
    (dispatch sampleCollaborators typedAbState 'c' '<'.toNat) 'x'.toNat
    ('a'.toNat :: 'b'.toNat :: List.replicate 198 0)
    (by decide) (by decide) (by decide) (by decide) (by decide)
  ⟨h.1, h.2.1⟩

/-! ## Mode dispatcher: cursor moves -/

theorem dispatch_cursor_eq (env : Collaborators) (s : Calc) (c : Nat) :
    dispatch env s 'c' c = dispatchCursor env s c := by
  have h1 : ('c' : Char) ≠ 'p' := by decide
  have h2 : ('c' : Char) ≠ 'a' := by decide
  have h3 : ('c' : Char) ≠ 't' := by decide
  have h4 : ('c' : Char) ≠ 'e' := by decide
  simp only [dispatch, h1, h2, h3, h4, if_true, if_false]

/-- The command-line index after a cursor move in CommandLine mode. -/
theorem cursor_index_commandLine (env : Collaborators) (s : Calc) (c : Nat)
    (hm : s.mode = 'c') :
    (dispatchCursor env s c).textBufferIndex
      = if c = '<'.toNat then
          (if s.textBufferIndex > 0 then s.textBufferIndex - 1 else s.textBufferIndex)
        else if c = '>'.toNat then
          (if toUnsigned s.textBufferIndex < strlenMinusOne s.textBuffer
            then s.textBufferIndex + 1 else s.textBufferIndex)
        else s.textBufferIndex := by
  have hce : ('c' : Char) ≠ 'e' := by decide
  have hcf : ('c' : Char) ≠ 'f' := by decide
  unfold dispatchCursor
  simp only [hm, hce, hcf, and_true, and_false, if_false, false_and]
  split_ifs <;> rfl

/-- The selection index after a cursor move in FunctionMenu mode. -/
theorem cursor_index_functionMenu (env : Collaborators) (s : Calc) (c : Nat)
    (hm : s.mode = 'f') :
    (dispatchCursor env s c).functionIndex
      = if c = '<'.toNat then
          (if s.functionIndex > 0 then s.functionIndex - 1 else s.functionIndex)
        else if c = '>'.toNat then
          (if toUnsigned s.functionIndex < strlenMinusOne s.functionTextSelBuffer
            then s.functionIndex + 1 else s.functionIndex)
        else s.functionIndex := by
  have hfc : ('f' : Char) ≠ 'c' := by decide
  have hfe : ('f' : Char) ≠ 'e' := by decide
  unfold dispatchCursor
  simp only [hm, hfc, hfe, and_true, and_false, if_false, true_and, false_and]
  split_ifs <;> rfl

/-- The equation index after a cursor move in EquationEdit mode with a slot
selected. -/
theorem cursor_index_equationEdit (env : Collaborators) (s : Calc) (c : Nat)
    (equ : List Nat) (hm : s.mode = 'e') (hslot : s.slot s.currentEquation = some equ) :
    (dispatchCursor env s c).equationIndex
      = if c = '<'.toNat then
          (if s.equationIndex > 0 then s.equationIndex - 1 else s.equationIndex)
        else if c = '>'.toNat then
          (if s.equationIndex < toSigned (strlenMinusOne equ)
            then s.equationIndex + 1 else s.equationIndex)
        else s.equationIndex := by
  have hec : ('e' : Char) ≠ 'c' := by decide
  have hef : ('e' : Char) ≠ 'f' := by decide
  unfold dispatchCursor
  simp only [hm, hec, hef, hslot, and_true, and_false, if_false, if_true, false_and]
  split_ifs <;> rfl

/-- A cursor move leaves the active buffer as it is. -/
theorem cursor_activeBuffer (env : Collaborators) (s : Calc) (c : Nat) :
    (dispatchCursor env s c).activeBuffer = s.activeBuffer := by
  obtain ⟨b1, b2, bA, bB, bC, bD, bE, bF, bm, bc⟩ := cursor_buffers env s c
  simp only [Calc.activeBuffer, bm, b1, b2, bc]
  rw [slot_eq_of_fields s _ bA bB bC bD bE bF s.currentEquation]

theorem cursor_activeIndex (env : Collaborators) (s : Calc) (c : Nat) :
    (dispatchCursor env s c).activeIndex
      = if s.mode = 'c' then (dispatchCursor env s c).textBufferIndex
        else if s.mode = 'e' then (dispatchCursor env s c).equationIndex
        else (dispatchCursor env s c).functionIndex := by
  obtain ⟨_, _, _, _, _, _, _, _, bm, _⟩ := cursor_buffers env s c
  simp only [Calc.activeIndex, bm]

/-- The active index after a cursor move over a non-empty text that fits an
`int`, from an index inside the text. -/
theorem cursor_active_step (env : Collaborators) (s : Calc) (c : Nat) (buf : List Nat)
    (hact : s.activeBuffer = some buf)
    (hlen : 1 ≤ strlen buf) (hfit : strlen buf ≤ 32767)
    (hlo : 0 ≤ s.activeIndex) (hhi : s.activeIndex ≤ (strlen buf : Int) - 1) :
    (dispatchCursor env s c).activeIndex
      = if c = '<'.toNat then
          (if s.activeIndex = 0 then s.activeIndex else s.activeIndex - 1)
        else if c = '>'.toNat then
          (if s.activeIndex = (strlen buf : Int) - 1 then s.activeIndex
            else s.activeIndex + 1)
        else s.activeIndex := by
  have hfc : ('f' : Char) ≠ 'c' := by decide
  have hfe : ('f' : Char) ≠ 'e' := by decide
  have hec : ('e' : Char) ≠ 'c' := by decide
  rw [cursor_activeIndex]
  unfold Calc.activeBuffer at hact
  unfold Calc.activeIndex at hlo hhi ⊢
  by_cases hc : s.mode = 'c'
  · simp only [hc, if_true] at hact hlo hhi ⊢
    injection hact with hact
    subst hact
    rw [cursor_index_commandLine env s c hc]
    simp only [toUnsigned, strlenMinusOne]
    split_ifs <;> omega
  · by_cases he : s.mode = 'e'
    · simp only [he, hec, if_true, if_false] at hact hlo hhi ⊢
      rw [cursor_index_equationEdit env s c buf he hact]
      simp only [toUnsigned, strlenMinusOne, toSigned]
      split_ifs <;> omega
    · by_cases hf : s.mode = 'f'
      · simp only [hf, hfc, hfe, if_true, if_false] at hact hlo hhi ⊢
        injection hact with hact
        subst hact
        rw [cursor_index_functionMenu env s c hf]
        simp only [toUnsigned, strlenMinusOne]
        split_ifs <;> omega
      · simp only [hc, he, hf, if_false] at hact
        exact absurd hact (by simp)

set_option maxRecDepth 20000 in
/-- C13 (as stated, refuted): a cursor move does not always leave the index
inside the text.  On the command line holding "ab" the index left by typing
is 2, the text length, and '>' leaves it at 2, outside [0, 1]; the same
happens in the 3-byte selection buffer after "12" was typed.  On the empty
command line of the freshly started program '>' moves the index from 0 to
1. -/
theorem cursor_move_leaves_text :
    (strlen typedAbState.textBuffer = 2
      ∧ typedAbState.textBufferIndex = 2
      ∧ (dispatch sampleCollaborators typedAbState 'c' '>'.toNat).textBufferIndex = 2
      ∧ ¬ ((dispatch sampleCollaborators typedAbState 'c' '>'.toNat).textBufferIndex
            ≤ (strlen (dispatch sampleCollaborators typedAbState 'c'
                '>'.toNat).textBuffer : Int) - 1))
    ∧ (strlen (dispatchAll sampleCollaborators (Calc.init 120 200 3)
          [('t', 7), ('p', '1'.toNat), ('p', '2'.toNat),
            ('c', '>'.toNat)]).functionTextSelBuffer = 2
      ∧ (dispatchAll sampleCollaborators (Calc.init 120 200 3)
          [('t', 7), ('p', '1'.toNat), ('p', '2'.toNat),
            ('c', '>'.toNat)]).functionIndex = 2)
    ∧ (strlen (Calc.init 120 200 3).textBuffer = 0
      ∧ (Calc.init 120 200 3).textBufferIndex = 0
      ∧ (dispatch sampleCollaborators (Calc.init 120 200 3) 'c'
          '>'.toNat).textBufferIndex = 1) := by
  decide

/-- C13 (amended): a cursor move keeps an index that is inside a non-empty
text inside it.  For each of the modes CommandLine, EquationEdit (with a slot
selected) and FunctionMenu, every set of collaborators and every state whose
active buffer holds a non-empty text (of a length that fits an `int`) with the
active index in [0, length-1]: after a CursorMove input ('<' or '>') the
active buffer is unchanged and the active index again lies in [0, length-1];
'<' moves it down by one except at index 0, where it stays, and '>' moves it
up by one except on the last character, where it stays. -/
theorem cursor_move_stays_in_text (env : Collaborators) (s : Calc) (c : Nat)
    (buf : List Nat) (hact : s.activeBuffer = some buf)
    (hlen : 1 ≤ strlen buf) (hfit : strlen buf ≤ 32767)
    (hlo : 0 ≤ s.activeIndex) (hhi : s.activeIndex ≤ (strlen buf : Int) - 1) :
    (dispatch env s 'c' c).activeBuffer = some buf
    ∧ 0 ≤ (dispatch env s 'c' c).activeIndex
    ∧ (dispatch env s 'c' c).activeIndex ≤ (strlen buf : Int) - 1
    ∧ (c = '<'.toNat → (dispatch env s 'c' c).activeIndex
        = if s.activeIndex = 0 then s.activeIndex else s.activeIndex - 1)
    ∧ (c = '>'.toNat → (dispatch env s 'c' c).activeIndex
        = if s.activeIndex = (strlen buf : Int) - 1 then s.activeIndex
          else s.activeIndex + 1) := by
  have hne : '>'.toNat ≠ '<'.toNat := by decide
  have hstep := cursor_active_step env s c buf hact hlen hfit hlo hhi
  rw [dispatch_cursor_eq, cursor_activeBuffer, hstep]
  refine ⟨hact, ?_, ?_, ?_, ?_⟩
  · split_ifs <;> omega
  · split_ifs <;> omega
  · intro h; rw [if_pos h]
  · intro h; rw [if_neg (by rw [h]; exact hne), if_pos h]

set_option maxRecDepth 20000 in
/-- Witness for C13 (amended): '<' on the command line holding "ab" with the
cursor on the 'b'. -/
theorem cursor_move_stays_in_text_witness :
    (dispatch sampleCollaborators
        (dispatch sampleCollaborators typedAbState 'c' '<'.toNat) 'c' '<'.toNat).activeBuffer
      = some ('a'.toNat :: 'b'.toNat :: List.replicate 198 0)
    ∧ 0 ≤ (dispatch sampleCollaborators
        (dispatch sampleCollaborators typedAbState 'c' '<'.toNat) 'c' '<'.toNat).activeIndex
    ∧ (dispatch sampleCollaborators
        (dispatch sampleCollaborators typedAbState 'c' '<'.toNat) 'c' '<'.toNat).activeIndex
      ≤ (strlen ('a'.toNat :: 'b'.toNat :: List.replicate 198 0) : Int) - 1 :=
  have h := cursor_move_stays_in_text sampleCollaborators
    (dispatch sampleCollaborators typedAbState 'c' '<'.toNat) '<'.toNat
    ('a'.toNat :: 'b'.toNat :: List.replicate 198 0)
    (by decide) (by decide) (by decide) (by decide) (by decide)
  ⟨h.1, h.2.1, h.2.2.1⟩

/-! ## Display initialisation: lemmas -/

theorem systemSet_eq (tr : Trace) :
    systemSet tr = tr ++ commandGroup C_SYS_SET
      [P_SYS_SET_P1_SMALL, P_SYS_SET_P2_SMALL, P_SYS_SET_P3_SMALL, P_SYS_SET_P4,
        P_SYS_SET_P5, P_SYS_SET_P6, P_SYS_SET_P7, P_SYS_SET_P8] := by
  simp [systemSet, send, commandGroup]

theorem setScroll_eq (tr : Trace) :
    setScroll tr = tr ++ commandGroup C_SCROLL
      [P_SCROLL_P1, P_SCROLL_P2, P_SCROLL_P3_MONO, P_SCROLL_P4_MONO, P_SCROLL_P5_MONO,
        P_SCROLL_P6_MONO, P_SCROLL_P7_MONO, P_SCROLL_P8_MONO] := by
  simp [setScroll, send, commandGroup]

theorem setHDOT_SCR_eq (tr : Trace) :
    setHDOT_SCR tr = tr ++ commandGroup C_HDOT_SCR [P_HDOT_SCR] := by
  simp [setHDOT_SCR, send, commandGroup]

theorem setOverlay_eq (tr : Trace) :
    setOverlay tr = tr ++ commandGroup C_OVERLAY [P_OVERLAY] := by
  simp [setOverlay, send, commandGroup]

theorem setDispState_off (tr : Trace) :
    setDispState '0' tr = tr ++ commandGroup C_DISP_OFF [P_DISP_ATTRIB_NOCURSOR] := by
  simp [setDispState, send, commandGroup]

theorem setDispState_on (tr : Trace) :
    setDispState '1' tr = tr ++ commandGroup C_DISP_ON [P_DISP_ATTRIB_NOCURSOR] := by
  simp [setDispState, send, commandGroup]

theorem setCSRW_eq (tr : Trace) : setCSRW tr = tr ++ commandGroup C_CSRW [0, 0] := by
  simp [setCSRW, send, commandGroup]

theorem setCSRForm_eq (tr : Trace) :
    setCSRForm tr = tr ++ commandGroup C_CSRFORM [P_CSRFORM_P1_SMALL, P_CSRFORM_P2_SMALL] := by
  simp [setCSRForm, send, commandGroup]

/-- The inner loop started at `j`, with `n` values of `j` left below 127,
submits one cursor-address group and one memory-write group per value. -/
theorem clearInner_eq (i : Nat) (n : Nat) : ∀ (j : Nat) (tr : Trace), j + n = 127 →
    clearInner i j tr = tr ++ (List.range' j n).flatMap (fun j =>
      commandGroup C_CSRW [i, j] ++ commandGroup C_MEMWRITE [0]) := by
  induction n with
  | zero =>
    intro j tr h
    rw [clearInner]
    simp [show ¬ j < 127 by omega]
  | succ n ih =>
    intro j tr h
    rw [clearInner]
    have hj : j < 127 := by omega
    have hmod : (j + 1) % 256 = j + 1 := by omega
    simp only [hj, if_true, hmod]
    rw [ih (j + 1) _ (by omega), List.range'_succ j n, List.flatMap_cons]
    simp [send, commandGroup]

/-- The outer loop started at `i`, with `n` values of `i` left below 255. -/
theorem clearOuter_eq (n : Nat) : ∀ (i : Nat) (tr : Trace), i + n = 255 →
    clearOuter i tr = tr ++ (List.range' i n).flatMap (fun i =>
      (List.range 127).flatMap (fun j =>
        commandGroup C_CSRW [i, j] ++ commandGroup C_MEMWRITE [0])) := by
  induction n with
  | zero =>
    intro i tr h
    rw [clearOuter]
    simp [show ¬ i < 255 by omega]
  | succ n ih =>
    intro i tr h
    rw [clearOuter]
    have hi : i < 255 := by omega
    have hmod : (i + 1) % 256 = i + 1 := by omega
    simp only [hi, if_true, hmod]
    rw [ih (i + 1) _ (by omega), clearInner_eq i 127 0 tr (by omega),
      List.range'_succ i n, List.flatMap_cons, List.range_eq_range' 127, List.append_assoc]

theorem clearAllDisplayMemory_eq (tr : Trace) :
    clearAllDisplayMemory tr = tr ++ sweepGroups := by
  unfold clearAllDisplayMemory sweepGroups
  rw [clearOuter_eq 255 0 tr (by omega), List.range_eq_range' 255]

theorem commandBytes_append (a b : Trace) :
    commandBytes (a ++ b) = commandBytes a ++ commandBytes b := by
  simp [commandBytes]

theorem commandBytes_group (command : Nat) (parameters : List Nat) :
    commandBytes (commandGroup command parameters) = [command] := by
  have h : ∀ ps : List Nat,
      (ps.map (fun p => ((p, '0') : Nat × Char))).filter (fun p => decide (p.2 = '1')) = [] := by
    intro ps
    induction ps with
    | nil => rfl
    | cons p ps ih => simp [List.filter, ih]
  simp only [commandBytes, commandGroup, List.filter_cons, decide_True, if_true, h,
    List.map_cons, List.map_nil]

theorem commandBytes_flatMap {α : Type} (l : List α) (f : α → Trace) :
    commandBytes (l.flatMap f) = l.flatMap (fun x => commandBytes (f x)) := by
  induction l with
  | nil => rfl
  | cons x xs ih => simp [commandBytes_append, ih]

/-- The whole of `initDisplay`, group by group, after the calls made before
it. -/
theorem initDisplay_eq (tr : Trace) :
    initDisplay tr
      = tr ++ (commandGroup C_SYS_SET
          [P_SYS_SET_P1_SMALL, P_SYS_SET_P2_SMALL, P_SYS_SET_P3_SMALL, P_SYS_SET_P4,
            P_SYS_SET_P5, P_SYS_SET_P6, P_SYS_SET_P7, P_SYS_SET_P8]
        ++ commandGroup C_SCROLL
          [P_SCROLL_P1, P_SCROLL_P2, P_SCROLL_P3_MONO, P_SCROLL_P4_MONO, P_SCROLL_P5_MONO,
            P_SCROLL_P6_MONO, P_SCROLL_P7_MONO, P_SCROLL_P8_MONO]
        ++ commandGroup C_HDOT_SCR [P_HDOT_SCR]
        ++ commandGroup C_OVERLAY [P_OVERLAY]
        ++ commandGroup C_DISP_OFF [P_DISP_ATTRIB_NOCURSOR]
        ++ sweepGroups
        ++ commandGroup C_CSRW [0, 0]
        ++ commandGroup C_CSRFORM [P_CSRFORM_P1_SMALL, P_CSRFORM_P2_SMALL]
        ++ commandGroup C_DISP_ON [P_DISP_ATTRIB_NOCURSOR]) := by
  simp only [initDisplay, systemSet_eq, setScroll_eq, setHDOT_SCR_eq, setOverlay_eq,
    setDispState_off, clearAllDisplayMemory_eq, setCSRW_eq, setCSRForm_eq, setDispState_on,
    List.append_assoc]

theorem commandBytes_sweepGroups :
    commandBytes sweepGroups
      = (List.range 255).flatMap (fun _ =>
          (List.range 127).flatMap (fun _ => [C_CSRW, C_MEMWRITE])) := by
  simp only [sweepGroups, commandBytes_flatMap, commandBytes_append, commandBytes_group,
    List.singleton_append]

/-- The command bytes of `initDisplay`, in the order submitted. -/
theorem commandBytes_initDisplay :
    commandBytes (initDisplay [])
      = [C_SYS_SET, C_SCROLL, C_HDOT_SCR, C_OVERLAY, C_DISP_OFF]
        ++ (List.range 255).flatMap (fun _ =>
            (List.range 127).flatMap (fun _ => [C_CSRW, C_MEMWRITE]))
        ++ [C_CSRW, C_CSRFORM, C_DISP_ON] := by
  rw [initDisplay_eq]
  simp only [commandBytes_append, commandBytes_group, commandBytes_sweepGroups,
    List.singleton_append, List.cons_append, List.append_assoc, List.nil_append]

/-! ## Display initialisation: the claim -/

/-- C15 (as stated, refuted): the cursor-shape group does not come before the
cursor-address group.  The last three command bytes `initDisplay` submits
are, newest first, display on, C_CSRFORM, C_CSRW, so cursor-address (C_CSRW)
is sent before cursor-shape (C_CSRFORM); and the trace differs from the one
with the two groups in the claimed order. -/
theorem initDisplay_cursor_address_before_shape :
    (commandBytes (initDisplay [])).reverse.take 3 = [C_DISP_ON, C_CSRFORM, C_CSRW]
    ∧ (commandBytes (initDisplay [])).reverse.take 3 ≠ [C_DISP_ON, C_CSRW, C_CSRFORM]
    ∧ initDisplay []
      ≠ [] ++ (commandGroup C_SYS_SET
          [P_SYS_SET_P1_SMALL, P_SYS_SET_P2_SMALL, P_SYS_SET_P3_SMALL, P_SYS_SET_P4,
            P_SYS_SET_P5, P_SYS_SET_P6, P_SYS_SET_P7, P_SYS_SET_P8]
        ++ commandGroup C_SCROLL
          [P_SCROLL_P1, P_SCROLL_P2, P_SCROLL_P3_MONO, P_SCROLL_P4_MONO, P_SCROLL_P5_MONO,
            P_SCROLL_P6_MONO, P_SCROLL_P7_MONO, P_SCROLL_P8_MONO]
        ++ commandGroup C_HDOT_SCR [P_HDOT_SCR]
        ++ commandGroup C_OVERLAY [P_OVERLAY]
        ++ commandGroup C_DISP_OFF [P_DISP_ATTRIB_NOCURSOR]
        ++ sweepGroups
        ++ commandGroup C_CSRFORM [P_CSRFORM_P1_SMALL, P_CSRFORM_P2_SMALL]
        ++ commandGroup C_CSRW [0, 0]
        ++ commandGroup C_DISP_ON [P_DISP_ATTRIB_NOCURSOR]) := by
  have hlast : (commandBytes (initDisplay [])).reverse.take 3
      = [C_DISP_ON, C_CSRFORM, C_CSRW] := by
    rw [commandBytes_initDisplay, List.reverse_append]
    rfl
  refine ⟨hlast, ?_, ?_⟩
  · rw [hlast]; decide
  · intro h
    have h2 := congrArg (fun t => (commandBytes t).reverse.take 3) h
    simp only at h2
    rw [hlast] at h2
    simp only [commandBytes_append, commandBytes_group, List.nil_append,
      List.reverse_append] at h2
    revert h2
    decide

/-- C15 (amended): the order of the initialisation commands.  After whatever
was submitted before, `initDisplay` submits its command groups in the fixed
order system-set, scroll-region, horizontal-scroll, overlay, display off,
memory-clear sweep, cursor-address (C_CSRW), cursor-shape (C_CSRFORM), display
on; each group is its command byte sent with the command flag '1' followed
by its parameter bytes sent with flag '0'.  So the bytes sent with the command
flag are, in order, the five set-up commands, a C_CSRW and a C_MEMWRITE for
each of the 255 * 127 cells of the sweep, then C_CSRW, C_CSRFORM and
C_DISP_ON. -/
theorem initDisplay_command_order (tr : Trace) :
    initDisplay tr
      = tr ++ (commandGroup C_SYS_SET
          [P_SYS_SET_P1_SMALL, P_SYS_SET_P2_SMALL, P_SYS_SET_P3_SMALL, P_SYS_SET_P4,
            P_SYS_SET_P5, P_SYS_SET_P6, P_SYS_SET_P7, P_SYS_SET_P8]
        ++ commandGroup C_SCROLL
          [P_SCROLL_P1, P_SCROLL_P2, P_SCROLL_P3_MONO, P_SCROLL_P4_MONO, P_SCROLL_P5_MONO,
            P_SCROLL_P6_MONO, P_SCROLL_P7_MONO, P_SCROLL_P8_MONO]
        ++ commandGroup C_HDOT_SCR [P_HDOT_SCR]
        ++ commandGroup C_OVERLAY [P_OVERLAY]
        ++ commandGroup C_DISP_OFF [P_DISP_ATTRIB_NOCURSOR]
        ++ sweepGroups
        ++ commandGroup C_CSRW [0, 0]
        ++ commandGroup C_CSRFORM [P_CSRFORM_P1_SMALL, P_CSRFORM_P2_SMALL]
        ++ commandGroup C_DISP_ON [P_DISP_ATTRIB_NOCURSOR])
    ∧ commandBytes (initDisplay [])
      = [C_SYS_SET, C_SCROLL, C_HDOT_SCR, C_OVERLAY, C_DISP_OFF]
        ++ (List.range 255).flatMap (fun _ =>
            (List.range 127).flatMap (fun _ => [C_CSRW, C_MEMWRITE]))
        ++ [C_CSRW, C_CSRFORM, C_DISP_ON] :=
  ⟨initDisplay_eq tr, commandBytes_initDisplay⟩

/-! ## Display link: the transmission slot and the other port bits -/

/-- The three fields of the transmission slot after one tick: the flag is
cleared exactly by a latching tick, the byte and the command flag are
never written. -/
theorem clockTick_slot (s : DisplayLink) :
    (clockTick s).byteAwaitingTransmission
        = (if latchesNext s then '0' else s.byteAwaitingTransmission)
    ∧ (clockTick s).byteToSend = s.byteToSend
    ∧ (clockTick s).isCommand = s.isCommand := by
  by_cases hclk : s.PORTB &&& CLOCK_PIN = 0
  · have hhigh := (clock_high_after_iff s.PORTB).mpr hclk
    by_cases hp : s.byteAwaitingTransmission = '1'
    · rw [clockTick_latch s hclk hp]
      simp [latchesNext, hhigh, hp]
    · rw [clockTick_idle s hclk hp]
      simp [latchesNext, hp]
  · have hn : ¬ ((s.PORTB ^^^ CLOCK_PIN) &&& CLOCK_PIN = CLOCK_PIN) :=
      fun h => hclk ((clock_high_after_iff s.PORTB).mp h)
    rw [clockTick_falling s hclk]
    simp [latchesNext, hn]

/-- C21: the clock-tick handler keeps the single-writer discipline of the
transmission slot.  For every state: if `byteAwaitingTransmission` is not '1'
before the tick it is unchanged, so not '1', after; the flag changes only on
a tick that latches the byte, and then it is '0'; on every other tick it is
unchanged; `byteToSend` and `isCommand` are never modified. -/
theorem clockTick_single_writer (s : DisplayLink) :
    (s.byteAwaitingTransmission ≠ '1' →
        (clockTick s).byteAwaitingTransmission = s.byteAwaitingTransmission
        ∧ (clockTick s).byteAwaitingTransmission ≠ '1')
    ∧ ((clockTick s).byteAwaitingTransmission ≠ s.byteAwaitingTransmission →
        latchesNext s = true ∧ (clockTick s).byteAwaitingTransmission = '0')
    ∧ (latchesNext s = false →
        (clockTick s).byteAwaitingTransmission = s.byteAwaitingTransmission)
    ∧ (clockTick s).byteToSend = s.byteToSend
    ∧ (clockTick s).isCommand = s.isCommand := by
  obtain ⟨h1, h2, h3⟩ := clockTick_slot s
  refine ⟨?_, ?_, ?_, h2, h3⟩
  · intro hidle
    have hl : latchesNext s = false := by simp [latchesNext, hidle]
    rw [h1, hl]
    exact ⟨by simp, by simpa using hidle⟩
  · intro hne
    rw [h1] at hne ⊢
    cases hl : latchesNext s
    · rw [hl] at hne; simp at hne
    · simp
  · intro hl
    rw [h1, hl]
    simp

theorem and_two_pow_congr (x y k : Nat) (h : x.testBit k = y.testBit k) :
    x &&& 2 ^ k = y &&& 2 ^ k := by
  rw [Nat.and_two_pow, Nat.and_two_pow, h]

theorem dispatch_alt_eq (env : Collaborators) (s : Calc) (c : Nat) :
    dispatch env s 'a' c = dispatchAlt s := by
  have h1 : ('a' : Char) ≠ 'p' := by decide
  simp only [dispatch, h1, if_false, if_true]

/-- The bits of the two ports a latching tick does not drive. -/
theorem clockTick_latch_frame (l : DisplayLink) (hclk : l.PORTB &&& CLOCK_PIN = 0)
    (hpend : l.byteAwaitingTransmission = '1') :
    (clockTick l).PORTB.testBit 5 = l.PORTB.testBit 5
    ∧ (clockTick l).PORTB.testBit 4 = l.PORTB.testBit 4
    ∧ (clockTick l).PORTD.testBit 0 = l.PORTD.testBit 0
    ∧ (clockTick l).PORTD.testBit 1 = l.PORTD.testBit 1 := by
  rw [clockTick_latch l hclk hpend]
  simp only [testBit_latched_PORTB, testBit_latched_PORTD]
  refine ⟨?_, ?_, ?_, ?_⟩
  · have h : Nat.testBit CLOCK_PIN 5 = false := by decide
    rw [Nat.testBit_xor, h]; simp
  · have h : Nat.testBit CLOCK_PIN 4 = false := by decide
    rw [Nat.testBit_xor, h]; simp
  · simp
  · simp

/-- C22: an idle clock-high tick overwrites all of PORTB, a latching tick does
not.  With the clock bit low before the tick: when no byte is pending the
handler leaves PORTB equal to CLOCK_PIN and PORTD equal to 0, so the A0, RESET
and LED_PIN bits are 0 afterwards; when a byte is pending the LED_PIN and
RESET_PIN bits of PORTB and bits 1..0 of PORTD are as before.  The AltToggle
input flips the LED_PIN bit of PORTB and `altFunction`, and whatever state it
was dispatched in, an idle clock-high tick that finds PORTB as the toggle left
it leaves the LED_PIN bit 0. -/
theorem idle_tick_overwrites_portB (env : Collaborators) (s : Calc) (c : Nat)
    (l : DisplayLink) (hclk : l.PORTB &&& CLOCK_PIN = 0) :
    (l.byteAwaitingTransmission ≠ '1' →
        (clockTick l).PORTB = CLOCK_PIN ∧ (clockTick l).PORTD = 0
        ∧ (clockTick l).PORTB &&& A0_PIN = 0
        ∧ (clockTick l).PORTB &&& RESET_PIN = 0
        ∧ (clockTick l).PORTB &&& LED_PIN = 0)
    ∧ (l.byteAwaitingTransmission = '1' →
        (clockTick l).PORTB &&& LED_PIN = l.PORTB &&& LED_PIN
        ∧ (clockTick l).PORTB &&& RESET_PIN = l.PORTB &&& RESET_PIN
        ∧ (clockTick l).PORTD.testBit 0 = l.PORTD.testBit 0
        ∧ (clockTick l).PORTD.testBit 1 = l.PORTD.testBit 1)
    ∧ (dispatch env s 'a' c).PORTB = s.PORTB ^^^ LED_PIN
    ∧ (dispatch env s 'a' c).altFunction = (if s.altFunction = '0' then '1' else '0')
    ∧ (l.PORTB = (dispatch env s 'a' c).PORTB → l.byteAwaitingTransmission ≠ '1' →
        (clockTick l).PORTB &&& LED_PIN = 0) := by
  have hidle : l.byteAwaitingTransmission ≠ '1' →
      (clockTick l).PORTB = CLOCK_PIN ∧ (clockTick l).PORTD = 0
      ∧ (clockTick l).PORTB &&& A0_PIN = 0
      ∧ (clockTick l).PORTB &&& RESET_PIN = 0
      ∧ (clockTick l).PORTB &&& LED_PIN = 0 := by
    intro h
    rw [clockTick_idle l hclk h]
    have hA : CLOCK_PIN &&& A0_PIN = 0 := by decide
    have hR : CLOCK_PIN &&& RESET_PIN = 0 := by decide
    have hL : CLOCK_PIN &&& LED_PIN = 0 := by decide
    exact ⟨rfl, rfl, hA, hR, hL⟩
  refine ⟨hidle, ?_, ?_, ?_, ?_⟩
  · intro hpend
    obtain ⟨h5, h4, h0, h1⟩ := clockTick_latch_frame l hclk hpend
    exact ⟨and_two_pow_congr _ _ 5 h5, and_two_pow_congr _ _ 4 h4, h0, h1⟩
  · rw [dispatch_alt_eq]; rfl
  · rw [dispatch_alt_eq]; rfl
  · intro _ h
    exact (hidle h).2.2.2.2

/-- Witness for C22: the alt key pressed in the freshly started program, then
an idle tick on a port B that holds the LED, RESET, A0 and data bits with the
clock low. -/
theorem idle_tick_overwrites_portB_witness :
    (clockTick ⟨0x37, 0xFF, 0xA5, '0', '1'⟩).PORTB = CLOCK_PIN
    ∧ (clockTick ⟨0x37, 0xFF, 0xA5, '0', '1'⟩).PORTD = 0
    ∧ (clockTick ⟨0x37, 0xFF, 0xA5, '0', '1'⟩).PORTB &&& LED_PIN = 0
    ∧ (dispatch sampleCollaborators (Calc.init 120 200 3) 'a' 0).PORTB
        = (Calc.init 120 200 3).PORTB ^^^ LED_PIN :=
  have h := idle_tick_overwrites_portB sampleCollaborators (Calc.init 120 200 3) 0
    ⟨0x37, 0xFF, 0xA5, '0', '1'⟩ (by decide)
  ⟨(h.1 (by decide)).1, (h.1 (by decide)).2.1, (h.1 (by decide)).2.2.2.2, h.2.2.1⟩

/-! ## Memory-clear sweep -/

/-- The five calls of one pass of the inner loop. -/
theorem sweep_cell (i j : Nat) :
    commandGroup C_CSRW [i, j] ++ commandGroup C_MEMWRITE [0]
      = [(C_CSRW, '1'), (i, '0'), (j, '0'), (C_MEMWRITE, '1'), (0, '0')] := rfl

theorem length_flatMap_const {α β : Type} (l : List α) (f : α → List β) (n : Nat)
    (h : ∀ x, (f x).length = n) : (l.flatMap f).length = l.length * n := by
  induction l with
  | nil => simp
  | cons x xs ih =>
    simp only [List.flatMap_cons, List.length_append, h x, ih, List.length_cons]
    rw [Nat.succ_mul, Nat.add_comm]

theorem length_sweepGroups : sweepGroups.length = 161925 := by
  unfold sweepGroups
  rw [length_flatMap_const _ _ (127 * 5)]
  · simp
  · intro i
    rw [length_flatMap_const _ _ 5]
    · simp
    · intro j; rfl

theorem cursorAddresses_cell (i j : Nat) (rest : Trace) :
    cursorAddresses
        ([(C_CSRW, '1'), (i, '0'), (j, '0'), (C_MEMWRITE, '1'), (0, '0')] ++ rest)
      = (i, j) :: cursorAddresses rest := by
  have h0 : ('0' : Char) ≠ '1' := by decide
  have hm : C_MEMWRITE ≠ C_CSRW := by decide
  simp [cursorAddresses, h0, hm]

theorem cursorAddresses_row (i : Nat) (js : List Nat) (rest : Trace) :
    cursorAddresses (js.flatMap (fun j =>
        [(C_CSRW, '1'), (i, '0'), (j, '0'), (C_MEMWRITE, '1'), (0, '0')]) ++ rest)
      = js.map (fun j => (i, j)) ++ cursorAddresses rest := by
  induction js with
  | nil => simp
  | cons j js ih =>
    rw [List.flatMap_cons, List.append_assoc, cursorAddresses_cell, ih]
    simp

theorem cursorAddresses_rows (is js : List Nat) (rest : Trace) :
    cursorAddresses (is.flatMap (fun i => js.flatMap (fun j =>
        [(C_CSRW, '1'), (i, '0'), (j, '0'), (C_MEMWRITE, '1'), (0, '0')])) ++ rest)
      = is.flatMap (fun i => js.map (fun j => (i, j))) ++ cursorAddresses rest := by
  induction is with
  | nil => simp
  | cons i is ih =>
    rw [List.flatMap_cons, List.append_assoc, cursorAddresses_row, ih]
    simp

theorem cursorAddresses_sweepGroups :
    cursorAddresses sweepGroups
      = (List.range 255).flatMap (fun i => (List.range 127).map (fun j => (i, j))) := by
  have h := cursorAddresses_rows (List.range 255) (List.range 127) []
  have e : cursorAddresses [] = [] := rfl
  rw [List.append_nil, e, List.append_nil] at h
  exact h

/-! ## Memory-clear sweep: the claim -/

/-- C23: coverage of the memory-clear sweep.  `clearAllDisplayMemory` is a
total function (both loops terminate), and after whatever was submitted
before it submits, for `i` from 0 to 254 in the outer loop and `j` from 0 to
126 in the inner loop, exactly the five pairs (C_CSRW, '1'), (i, '0'),
(j, '0'), (C_MEMWRITE, '1'), (0, '0'): 255 * 127 * 5 = 161925 bytes in all.
The cursor addresses it issues are exactly the pairs (i, j) with i < 255 and
j < 127, each once, `i` outermost; so none has first parameter 255 or second
parameter 127 or more. -/
theorem clearAllDisplayMemory_coverage (tr : Trace) :
    clearAllDisplayMemory tr
      = tr ++ (List.range 255).flatMap (fun i => (List.range 127).flatMap (fun j =>
          [(C_CSRW, '1'), (i, '0'), (j, '0'), (C_MEMWRITE, '1'), (0, '0')]))
    ∧ (clearAllDisplayMemory tr).length = tr.length + 255 * 127 * 5
    ∧ (clearAllDisplayMemory []).length = 161925
    ∧ cursorAddresses (clearAllDisplayMemory [])
        = (List.range 255).flatMap (fun i => (List.range 127).map (fun j => (i, j)))
    ∧ (∀ i j, i < 255 → j < 127 → (i, j) ∈ cursorAddresses (clearAllDisplayMemory []))
    ∧ (∀ p ∈ cursorAddresses (clearAllDisplayMemory []),
        p.1 < 255 ∧ p.1 ≠ 255 ∧ p.2 < 127) := by
  have hnil : clearAllDisplayMemory [] = sweepGroups := by
    rw [clearAllDisplayMemory_eq, List.nil_append]
  have haddr := cursorAddresses_sweepGroups
  refine ⟨clearAllDisplayMemory_eq tr, ?_, ?_, ?_, ?_, ?_⟩
  · rw [clearAllDisplayMemory_eq, List.length_append, length_sweepGroups]
  · rw [hnil, length_sweepGroups]
  · rw [hnil, haddr]
  · intro i j hi hj
    rw [hnil, haddr, List.mem_flatMap]
    exact ⟨i, List.mem_range.mpr hi, List.mem_map.mpr ⟨j, List.mem_range.mpr hj, rfl⟩⟩
  · intro p hp
    rw [hnil, haddr, List.mem_flatMap] at hp
    obtain ⟨i, hi, hp⟩ := hp
    obtain ⟨j, hj, rfl⟩ := List.mem_map.mp hp
    have hi2 := List.mem_range.mp hi
    have hj2 := List.mem_range.mp hj
    exact ⟨hi2, by simp only; omega, hj2⟩
